import Mathlib

/-!
Verification of the Pixie LLM UI-generation and response pipeline.

Python strings are embedded as `List Char` (`Str`).  Pure helper
functions of the source (`app/api/core/prompts.py`,
`app/api/core/llm_chat.py`, `app/api/core/mcp_chat_service.py`,
`app/api/public/mcp_chat.py`) are translated into executable Lean
definitions; network calls (LLM providers, MCP tool invocations) and
database reads are represented by explicit outcome arguments.
-/

set_option maxRecDepth 100000

abbrev Str := List Char

/-- ASCII lowercase on a character code, as used by `str.lower()` for the
ASCII characters that occur in the compared literals. -/
def lowerNat (n : Nat) : Nat := if 65 ≤ n ∧ n ≤ 90 then n + 32 else n

/-- Case-insensitive character comparison (`a.lower() == b.lower()`). -/
def charEqCI (a b : Char) : Bool := lowerNat a.toNat == lowerNat b.toNat

/-- Python `s.startswith(pat)` on lists of characters. -/
def startsWithList : Str → Str → Bool
  | [], _ => true
  | _ :: _, [] => false
  | p :: ps, c :: cs => (p == c) && startsWithList ps cs

/-- Python `s.lower().startswith(pat)` for an already-lowercase `pat`. -/
def startsWithCIList : Str → Str → Bool
  | [], _ => true
  | _ :: _, [] => false
  | p :: ps, c :: cs => charEqCI p c && startsWithCIList ps cs

/-- Python `s.endswith(pat)` on lists of characters. -/
def endsWithList (pat s : Str) : Bool := startsWithList pat.reverse s.reverse

/-- Python `pat in s` (substring containment) on lists of characters. -/
def containsSub (pat : Str) (s : Str) : Bool :=
  startsWithList pat s ||
    (match s with
     | [] => false
     | _ :: t => containsSub pat t)

/-- The whitespace characters of Python `str.strip()` / regex `\s`
(ASCII range). -/
def pyIsSpace (c : Char) : Bool :=
  c == ' ' || c == '\t' || c == '\n' || c == '\x0d' || c == '\x0b' || c == '\x0c'

/-- Python `str.lstrip()`. -/
def pyLstrip (s : Str) : Str := s.dropWhile pyIsSpace

/-- Python `str.rstrip()`. -/
def pyRstrip (s : Str) : Str := (s.reverse.dropWhile pyIsSpace).reverse

/-- Python `str.strip()`. -/
def pyStrip (s : Str) : Str := pyRstrip (pyLstrip s)

/-- Python truthiness of an optional string (`None` and `""` are falsy). -/
def pyTruthyStr : Option Str → Bool
  | none => false
  | some s => !s.isEmpty

/-- Python `a or b` for an optional string `a` with default `b`. -/
def pyOrStr (a : Option Str) (b : Str) : Str :=
  match a with
  | none => b
  | some s => if s.isEmpty then b else s

/-- Render an optional string the way a Python f-string does
(`None` prints as `"None"`). -/
def pyShowOptStr : Option Str → Str
  | none => ("None").data
  | some s => s

/-- Decimal rendering of a natural number, as an f-string renders an `int`. -/
def natToStr (n : Nat) : Str := (Nat.repr n).data

/-- Python `"sep".join(parts)`. -/
def joinSep (sep : Str) : List Str → Str
  | [] => []
  | [x] => x
  | x :: xs => x ++ sep ++ joinSep sep xs

/-- Python `str.split(sep)` for a one-character separator, as used by
`conversation_context.split("\n")`.  Mirrors Python: splitting the empty
string yields one empty part. -/
def pySplitChar (sep : Char) (s : Str) : List Str :=
  match h : s.dropWhile (fun c => c ≠ sep) with
  | [] => [s.takeWhile (fun c => c ≠ sep)]
  | _ :: rest => s.takeWhile (fun c => c ≠ sep) :: pySplitChar sep rest
termination_by s.length
decreasing_by
  have h1 : (s.dropWhile (fun c => c ≠ sep)).length ≤ s.length :=
    (List.dropWhile_sublist _).length_le
  rw [h] at h1
  simp at h1
  omega

/-! ## JSON values (for tool schemas and the tool-decision parser) -/

/-- JSON values.  Numbers keep their source lexeme: the pipeline never
computes with them, it only re-serializes or discards them. -/
inductive Json where
  | null : Json
  | bool : Bool → Json
  | num : Str → Json
  | str : Str → Json
  | arr : List Json → Json
  | obj : List (Str × Json) → Json

/-- Python truthiness of a JSON value (`if tool.inputSchema:`).  In the
source this test is only applied to dict-valued schemas. -/
def pyTruthyJson : Json → Bool
  | .null => false
  | .bool b => b
  | .num lx => !(lx == ('0' :: []))
  | .str s => !s.isEmpty
  | .arr items => !items.isEmpty
  | .obj fields => !fields.isEmpty

/-- Escaping of a string for JSON serialization (the common escapes used
by `json.dumps` on the schema texts of this repository). -/
def jsonEscapeChar (c : Char) : Str :=
  if c == '"' then '\\' :: '"' :: []
  else if c == '\\' then '\\' :: '\\' :: []
  else if c == '\n' then '\\' :: 'n' :: []
  else if c == '\t' then '\\' :: 't' :: []
  else if c == '\x0d' then '\\' :: 'r' :: []
  else [c]

def jsonEscapeStr (s : Str) : Str := s.flatMap jsonEscapeChar

def indentSpaces (level : Nat) : Str := List.replicate (4 * level) ' '

/-- Python `json.dumps(v, indent=4)` at a given nesting level, with recursion
fuel (`sizeOf v` always suffices). -/
def jsonDumpsFuel : Nat → Nat → Json → Str
  | 0, _, _ => []
  | fuel + 1, level, j =>
    match j with
    | .null => ("null").data
    | .bool true => ("true").data
    | .bool false => ("false").data
    | .num lx => lx
    | .str s => '"' :: (jsonEscapeStr s ++ ['"'])
    | .arr [] => '[' :: [']']
    | .arr items =>
        ('[' :: '\n' :: indentSpaces (level + 1)) ++
          joinSep (',' :: '\n' :: indentSpaces (level + 1))
            (items.map (jsonDumpsFuel fuel (level + 1))) ++
          ('\n' :: indentSpaces level) ++ [']']
    | .obj [] => '\x7b' :: ['\x7d']
    | .obj fields =>
        ('\x7b' :: '\n' :: indentSpaces (level + 1)) ++
          joinSep (',' :: '\n' :: indentSpaces (level + 1))
            (fields.map (fun f =>
              ('"' :: (jsonEscapeStr f.1 ++ ['"'])) ++ (':' :: ' ' :: []) ++
                jsonDumpsFuel fuel (level + 1) f.2)) ++
          ('\n' :: indentSpaces level) ++ ['\x7d']

mutual
/-- Structural size of a JSON value, used as recursion fuel. -/
def jsonSize : Json → Nat
  | .null => 1
  | .bool _ => 1
  | .num _ => 1
  | .str _ => 1
  | .arr items => 1 + jsonSizeList items
  | .obj fields => 1 + jsonSizeFields fields

def jsonSizeList : List Json → Nat
  | [] => 0
  | x :: xs => jsonSize x + 1 + jsonSizeList xs

def jsonSizeFields : List (Str × Json) → Nat
  | [] => 0
  | f :: fs => jsonSize f.2 + 1 + jsonSizeFields fs
end

/-- Python `json.dumps(v, indent=4)`. -/
def jsonDumps4 (v : Json) : Str := jsonDumpsFuel (jsonSize v) 0 v

/-! ## Tool model (app/db/models/tools.py `Tool`, app/api/models/tools.py
`ToolResponse`): the fields consumed by the prompt builders. -/

structure Tool where
  id : Str
  name : Str
  title : Option Str
  description : Option Str
  inputSchema : Json
  outputSchema : Option Json
  is_enabled : Bool

/-! ## Prompt builders (app/api/core/prompts.py) -/

/-- Rendering of one tool entry in `build_text_response_prompt`
(prompts.py lines 25-30). -/
def renderTextTool (t : Tool) : Str :=
  ("- Tool ID: ").data ++ t.id ++ ("\n- Tool Name: ").data ++ t.name ++
    ("\n- Tool Description: ").data ++ pyShowOptStr t.description ++
    (if pyTruthyStr t.title then ("\n- Tool Title: ").data ++ pyShowOptStr t.title else [])

/-- The `tool_details` loop of `build_text_response_prompt`: disabled
tools are skipped with `continue`. -/
def textToolDetails : List Tool → List Str
  | [] => []
  | t :: ts =>
    if t.is_enabled then renderTextTool t :: textToolDetails ts else textToolDetails ts

/-- The `tools_section` string of `build_text_response_prompt`. -/
def textToolsSection (tools : List Tool) : Str :=
  if (textToolDetails tools).isEmpty then ("No tools available.").data
  else joinSep ('\n' :: '\n' :: []) (textToolDetails tools)

def textPromptPre : Str :=
  ("You are an assistant helping users create a UI based on the few tools. Look at the HTML content generated for the user\x27s request and suggest top 2-3 improvements that user can do next to improve the html content further.\n\n# User\x27s Request and generated HTML content:\n").data

def textPromptMid : Str := ("\n\n# Tool Details:\n").data

def textPromptPost : Str :=
  ("\n\nCRITICAL OUTPUT REQUIREMENTS:\n- The response MUST be concise and to the point and MUST ONLY suggest top 2-3 improvements that user can do next to improve the html content further.\n- Format your response using Markdown syntax for better readability\n- Use Markdown formatting: **bold**, *italic*, `code`, lists, headers, etc.\n- Do not include code examples in your response.\n- Do NOT include HTML tags or React components (the UI is generated separately)\n- Keep responses conversational and well-formatted with Markdown\n\nMARKDOWN FORMATTING GUIDELINES:\n- Use **bold** for emphasis on important points\n- Use `backticks` for inline code, function names, or technical terms\n- Use bullet points (-) or numbered lists for multiple items\n- Use headers (# ##) sparingly for sections if needed\n- Keep formatting clean and readable\n\nProvide helpful, accurate, markdown-formatted responses.").data

/-- Translation of `build_text_response_prompt` (prompts.py lines 8-57). -/
def buildTextResponsePrompt (user_message : Str) (tools : List Tool) : Str :=
  textPromptPre ++ user_message ++ textPromptMid ++ textToolsSection tools ++ textPromptPost

/-- Rendering of one tool entry in `build_ui_generation_prompt_base`
(prompts.py lines 87-109). -/
def renderUiTool (t : Tool) : Str :=
  ("\n    - Tool ID: ").data ++ t.id ++ ("\n    - Tool Name: ").data ++ t.name ++
    ("\n    - Tool Description: ").data ++ pyShowOptStr t.description ++
    (if pyTruthyStr t.title then ("\n    - Tool Title: ").data ++ pyShowOptStr t.title else []) ++
    (if pyTruthyJson t.inputSchema then
       ("\n    - Input Schema (JSON Schema for parameters):\n").data ++ jsonDumps4 t.inputSchema
     else []) ++
    (match t.outputSchema with
     | some os =>
         if pyTruthyJson os then
           ("\n    - Output Schema (JSON Schema for return value):\n").data ++ jsonDumps4 os
         else []
     | none => [])

/-- The `tool_details` loop of `build_ui_generation_prompt_base`. -/
def uiToolDetails : List Tool → List Str
  | [] => []
  | t :: ts =>
    if t.is_enabled then renderUiTool t :: uiToolDetails ts else uiToolDetails ts

/-- The `tools_section` string of `build_ui_generation_prompt_base`. -/
def uiToolsSection (tools : List Tool) : Str :=
  if (uiToolDetails tools).isEmpty then ("No tools available.").data
  else joinSep ('\n' :: '\n' :: []) (uiToolDetails tools)

/-- The `formatted_context` truncation (prompts.py lines 114-116). -/
def formattedContext (ctx : Str) : Str :=
  if ctx.length > 500 then ctx.take 1000 else ctx

/-- Design-asset view consumed by the prompt builders (the fields read
from `Design` ORM objects / dicts; the binary payload is irrelevant to
the prompt text).  `created_at` is a timestamp; `DesignRepository`
returns lists ordered by it, most recent first. -/
structure Design where
  id : Str
  filename : Str
  content_type : Str
  file_size : Nat
  created_at : Nat
deriving DecidableEq

/-- The `designs` dictionary produced by `_fetch_designs_for_llm`. -/
structure DesignsDict where
  logos : List Design
  ux_designs : List Design

/-- One design line of the designs section (prompts.py lines 139/158). -/
def renderDesignLine (d : Design) : Str :=
  ("    - ").data ++ d.filename ++ (" (").data ++ d.content_type ++ (", ").data ++
    natToStr d.file_size ++ (" bytes)\n").data

def logosCriticalLines : Str :=
  ("    CRITICAL: These logo images are included in the message content as image blocks. You MUST:\n    - Look at these logos to understand the brand identity, color scheme, and visual style\n    - Use these logos as visual inspiration for the UI design (colors, style, branding elements)\n    - Incorporate the logos directly into the generated UI by converting them to base64 data URLs in <img> tags\n    - Match the color palette, typography, and overall aesthetic from these logos\n").data

def uxCriticalLines : Str :=
  ("    CRITICAL: These UX design images are included in the message content as image blocks. You MUST:\n    - Study these UX designs carefully to understand the layout patterns, component styles, and visual hierarchy\n    - Use these designs as visual inspiration for layout, spacing, typography, and component design\n    - Match the overall aesthetic, color schemes, and design patterns shown in these images\n    - Adapt the design principles (not copy exactly) to create a cohesive UI that matches the visual style\n").data

/-- The `designs_section` of `build_ui_generation_prompt_base`
(prompts.py lines 119-163). -/
def designsSection (designs : Option DesignsDict) : Str :=
  match designs with
  | none => []
  | some ds =>
    if ds.logos.isEmpty && ds.ux_designs.isEmpty then []
    else
      ("\n\n- Available Designs for Visual Inspiration:\n").data ++
        (if !ds.logos.isEmpty then
           ("  * Logos (included as images in the message - you can see them visually):\n").data ++
             (ds.logos.map renderDesignLine).flatten ++ logosCriticalLines
         else []) ++
        (if !ds.ux_designs.isEmpty then
           ("  * UX Designs (included as images in the message - you can see them visually):\n").data ++
             (ds.ux_designs.map renderDesignLine).flatten ++ uxCriticalLines
         else [])

/-- The f-string header of `build_ui_generation_prompt_base`
(prompts.py lines 165-173). -/
def uiPromptHeader (tools : List Tool) (user_message ctx : Str)
    (designs : Option DesignsDict) : Str :=
  ("You are an expert React UI component generator. Your task is to generate production-ready, bug-free HTML with embedded React components.\n\nCONTEXT:\n- Tools:\n").data ++
    uiToolsSection tools ++ ("\n- User\x27s Request: ").data ++ user_message ++
    ("\n- Conversation History: ").data ++ formattedContext ctx ++ designsSection designs ++
    ("\n\n").data

/-- The edit-only instruction block appended when `has_existing_ui` is
true (prompts.py lines 176-202). -/
def uiEditBlock : Str :=
  ("\nCRITICAL - MODIFYING EXISTING UI - ABSOLUTE REQUIREMENTS:\n\nTHERE IS AN EXISTING UI. YOU MUST FOLLOW THESE RULES WITH ABSOLUTE PRECISION.\n\nStep 1: Read the user\x27s request carefully and identify EXACTLY what they want changed\nStep 2: Locate the EXACT code section in the existing HTML that needs modification\nStep 3: Make ONLY the minimal change required - nothing more\nStep 4: Copy ALL other code exactly as it appears - character by character\nStep 5: Verify that your change doesn\x27t affect any other part of the code\nStep 6: Ensure the change integrates seamlessly without breaking anything\n\n## EXAMPLES OF CORRECT BEHAVIOR\n   User: \"change the button color to blue\"\n   ✓ CORRECT: Find the button, change ONLY its color property, keep everything else identical\n   ✗ WRONG: Change button color AND modify layout, spacing, or other styles\n\n   User: \"add a new input field\"\n   ✓ CORRECT: Add ONLY the new input field, keep all existing fields and code unchanged\n   ✗ WRONG: Add input field AND modify existing fields, styles, or structure\n\n   User: \"remove the header\"\n   ✓ CORRECT: Remove ONLY the header element, keep everything else exactly as it was\n   ✗ WRONG: Remove header AND modify layout, spacing, or other components\n\nREMEMBER: Your ONLY job is to make the EXACT change requested. Everything else must remain IDENTICAL to the existing code.\n").data

/-- The code-quality block (prompts.py lines 204-274; a plain string in
the source, so its doubled braces are literal text). -/
def uiQualityBlock : Str :=
  ("\nCODE QUALITY REQUIREMENTS (CRITICAL - FOLLOW STRICTLY):\n\n1. STRUCTURAL VALIDITY:\n   - Every opening tag MUST have a matching closing tag\n   - All JSX expressions MUST be properly closed: <Component /> or <Component></Component>\n   - All function calls and object literals MUST have balanced braces \x7b\x7b \x7d\x7d\n   - All parentheses must be balanced\n   - DO NOT leave components or functions incomplete\n\n2. REACT SPECIFIC RULES:\n   - Use React.createElement syntax OR JSX with Babel standalone\n   - All component definitions MUST be complete (opening and closing)\n   - All useState, useEffect, and other hooks MUST have complete implementations\n   - All event handlers must be fully defined\n   - All conditional rendering (\x7b\x7bcondition && <Component />\x7d\x7d or \x7b\x7bcondition ? <A /> : <B />\x7d\x7d) must be properly closed\n\n3. JAVASCRIPT VALIDITY:\n   - All functions must have complete bodies (no truncated code)\n   - All object literals must have balanced braces\n   - All arrays must have balanced brackets\n   - All template literals (backticks) must be properly closed\n   - All strings must have matching quotes\n\n4. HTML STRUCTURE:\n   - MUST include complete <!DOCTYPE html> declaration\n   - MUST include opening <html> tag with lang attribute\n   - MUST include complete <head> section with:\n     * <meta charset=\"UTF-8\">\n     * <meta name=\"viewport\" content=\"width=device-width, initial-scale=1.0\">\n     * <title> tag with appropriate title\n     * React CDN scripts (react@18, react-dom@18)\n     * Babel standalone for JSX transformation\n     * <script src=\"/client/pixie-apps-sdk.bundle.js\"></script> (REQUIRED - must be included)\n     * Any additional libraries (Chart.js, etc.) if needed\n   - MUST include complete <body> section\n   - MUST include <div id=\"root\"></div> for React mounting\n   - MUST include complete <script type=\"text/babel\"> section\n   - MUST close all tags: </script>, </body>, </html>\n   - MUST ensure html content height is less than 500px\n\n5. COMPLETENESS CHECKS:\n   - Before finishing, count all opening and closing tags - they MUST match\n   - Verify all React components render properly (must call ReactDOM.render at the end)\n   - Ensure all imported libraries are actually used or remove unused imports\n   - All CSS classes referenced in JSX must be defined in <style> tag\n   - All JavaScript variables referenced must be defined\n\n6. FUNCTIONAL REQUIREMENTS:\n   - Code MUST be immediately runnable in a browser\n   - No syntax errors that would prevent execution\n   - All interactive elements must have proper event handlers\n   - Error handling for edge cases (empty arrays, null values, etc.)\n   \n7. TOOL CALLING (CRITICAL):\n   - The PixieAppsSdk bundle provides window.pixie object with tool calling capabilities\n   - To call tools, use: window.pixie.callTool(tool_name, tool_params)\n   - Example: window.pixie.callTool(\x27get_weather\x27, \x7b\x7b location: \x27New York\x27 \x7d\x7d)\n   - Look at the output Schema for the tool to understand the expected output structure.\n   - Always handle tool calls with async/await or .then()/.catch()\n   - The PixieAppsSdk automatically initializes and attaches to window.pixie when the script loads\n   - Available tool names are listed in the Tools section above - use the exact Tool Name when calling\n\n8. CODE GENERATION PROCESS:\n   - Write code step-by-step, ensuring each section is complete before moving on\n   - After writing each major section (HTML structure, React components, styling), verify it\x27s complete\n   - Before outputting, mentally trace through the code structure:\n     * Count opening/closing tags\n     * Verify all functions are complete\n     * Ensure React component tree is complete\n     * Check that all required imports are present").data

/-- The output-format block (prompts.py lines 277-320; a plain string in
the source). -/
def uiOutputBlock : Str :=
  ("\n\nOUTPUT FORMAT REQUIREMENTS:\n- Return ONLY raw HTML code starting with <!DOCTYPE html>\n- NO markdown code blocks (no ```html or ``` markers)\n- NO explanatory text before or after the HTML\n- NO comments like \"Here\x27s the HTML:\" or \"Here\x27s the updated code:\"\n- NO code comments explaining what you did\n- The response must START with <!DOCTYPE html> or <html\n- The response must END with </html>\n- Return the complete, valid HTML document with no wrapping text\n\nVALIDATION CHECKLIST (apply before outputting):\n[ ] All HTML tags are properly closed\n[ ] All JSX components are complete\n[ ] All JavaScript functions have complete bodies\n[ ] ReactDOM.render() is called with proper component\n[ ] All braces, brackets, and parentheses are balanced\n[ ] All strings are properly quoted and closed\n[ ] Document has <!DOCTYPE html>, <html>, <head>, <body> tags\n[ ] All CDN scripts are included and properly closed\n[ ] <script src=\"/client/pixie-apps-sdk.bundle.js\"></script> is included in <head>\n[ ] Tool calls use window.pixie.callTool(tool_name, tool_params) syntax\n[ ] <div id=\"root\"> exists and React component renders into it\n[ ] The total height of the page should be less than 500px\n\nPIXIEAPPS SDK INFORMATION:\nThe PixieAppsSdk bundle (/client/pixie-apps-sdk.bundle.js) provides:\n- window.pixie.callTool(name, params): Call tools asynchronously (returns Promise)\n- window.pixie.sendFollowUpMessage(\x7b prompt \x7d): Send follow-up messages\n- window.pixie.openExternal(\x7b href \x7d): Open external links\n- window.pixie.toolInput: Access tool input parameters\n- window.pixie.toolOutput: Access tool output data\n- window.pixie.widgetState: Access and modify widget state\n- window.pixie.setWidgetState(state): Update widget state\n- window.pixie.theme: Current theme (\x27light\x27 or \x27dark\x27)\n- window.pixie.locale: Current locale\n- window.pixie.userAgent: User agent information\n\nWhen calling tools:\n1. Use the exact Tool Name from the Tools section above\n2. Pass tool parameters as an object: \x7b\x7b param1: value1, param2: value2 \x7d\x7d\n3. Handle the Promise response: const result = await window.pixie.callTool(\x27tool_name\x27, \x7b\x7b param: value \x7d\x7d)\n4. Always include error handling for tool calls").data

/-- Translation of `build_ui_generation_prompt_base` (prompts.py lines
60-322): header, then the edit block only when `has_existing_ui`, then
the quality and output blocks. -/
def buildUiGenerationPromptBase (tools : List Tool) (user_message ctx : Str)
    (has_existing_ui : Bool) (designs : Option DesignsDict) : Str :=
  uiPromptHeader tools user_message ctx designs ++
    (if has_existing_ui then uiEditBlock else []) ++
    uiQualityBlock ++ uiOutputBlock

/-- Translation of `build_ui_generation_user_message` (prompts.py lines
325-348).  The function declares `user_message` as its only parameter;
its docstring mentions `tools` and `existing_html` arguments that do not
exist in the signature. -/
def buildUiGenerationUserMessage (user_message : Str) : Str :=
  ("Generate a new or update the existing React HTML UI for tools based on the user\x27s request: ").data ++
    user_message ++
    ("\n\nIMPORTANT: If design images (logos or UX designs) are included in this message, use them as visual inspiration for:\n- Color schemes and palette\n- Typography and font choices\n- Layout patterns and component styles\n- Overall aesthetic and visual hierarchy\n- Brand identity elements").data

/-! ## C1: disabled tools are invisible to the prompts -/

lemma textToolDetails_eq_filter (tools : List Tool) :
    textToolDetails tools = (tools.filter (fun t => t.is_enabled)).map renderTextTool := by
  induction tools with
  | nil => rfl
  | cons t ts ih =>
    by_cases h : t.is_enabled <;>
      simp [textToolDetails, List.filter_cons, h, ih]

lemma uiToolDetails_eq_filter (tools : List Tool) :
    uiToolDetails tools = (tools.filter (fun t => t.is_enabled)).map renderUiTool := by
  induction tools with
  | nil => rfl
  | cons t ts ih =>
    by_cases h : t.is_enabled <;>
      simp [uiToolDetails, List.filter_cons, h, ih]

lemma filter_enabled_idem (tools : List Tool) :
    (tools.filter (fun t => t.is_enabled)).filter (fun t => t.is_enabled) =
      tools.filter (fun t => t.is_enabled) := by
  induction tools with
  | nil => rfl
  | cons t ts ih =>
    by_cases h : t.is_enabled <;> simp [List.filter_cons, h, ih]

/-- **C1**: the tool sections of `build_text_response_prompt` and
`build_ui_generation_prompt_base` render exactly the `is_enabled` tools
(every rendered entry comes from an enabled tool), and both full prompts
are unchanged when the disabled tools are removed from the input — so a
disabled tool contributes nothing to either prompt. -/
theorem c1_disabled_tools_invisible :
    ∀ (user_message ctx : Str) (tools : List Tool) (hasUi : Bool)
      (designs : Option DesignsDict),
      textToolDetails tools = (tools.filter (fun t => t.is_enabled)).map renderTextTool ∧
      uiToolDetails tools = (tools.filter (fun t => t.is_enabled)).map renderUiTool ∧
      buildTextResponsePrompt user_message tools =
        buildTextResponsePrompt user_message (tools.filter (fun t => t.is_enabled)) ∧
      buildUiGenerationPromptBase tools user_message ctx hasUi designs =
        buildUiGenerationPromptBase (tools.filter (fun t => t.is_enabled))
          user_message ctx hasUi designs := by
  intro u ctx tools hasUi designs
  refine ⟨textToolDetails_eq_filter tools, uiToolDetails_eq_filter tools, ?_, ?_⟩
  · unfold buildTextResponsePrompt textToolsSection
    rw [textToolDetails_eq_filter tools, textToolDetails_eq_filter, filter_enabled_idem]
  · unfold buildUiGenerationPromptBase uiPromptHeader uiToolsSection
    rw [uiToolDetails_eq_filter tools, uiToolDetails_eq_filter, filter_enabled_idem]

/-! ## C6: mode dependence of the UI-generation system prompt -/

lemma uiPrompt_decomp (tools : List Tool) (u ctx : Str) (designs : Option DesignsDict) :
    buildUiGenerationPromptBase tools u ctx true designs =
      uiPromptHeader tools u ctx designs ++ uiEditBlock ++ (uiQualityBlock ++ uiOutputBlock) ∧
    buildUiGenerationPromptBase tools u ctx false designs =
      uiPromptHeader tools u ctx designs ++ (uiQualityBlock ++ uiOutputBlock) := by
  constructor <;> simp [buildUiGenerationPromptBase, List.append_assoc]

/-- **C6 counterexample**: at a concrete input, the `has_existing_ui =
false` prompt is exactly the `has_existing_ui = true` prompt with the
(non-empty) edit block removed, and a strict subsequence of it.  Hence
no "build from scratch" block exists: everything in the false-mode
prompt also occurs in the true-mode prompt, contradicting the claim that
exactly one of two mode blocks is included and never both. -/
theorem c6_counterexample :
    buildUiGenerationPromptBase [] [] [] true none =
      uiPromptHeader [] [] [] none ++ uiEditBlock ++ (uiQualityBlock ++ uiOutputBlock) ∧
    buildUiGenerationPromptBase [] [] [] false none =
      uiPromptHeader [] [] [] none ++ (uiQualityBlock ++ uiOutputBlock) ∧
    uiEditBlock ≠ [] ∧
    List.Sublist (buildUiGenerationPromptBase [] [] [] false none)
      (buildUiGenerationPromptBase [] [] [] true none) ∧
    buildUiGenerationPromptBase [] [] [] false none ≠
      buildUiGenerationPromptBase [] [] [] true none := by
  obtain ⟨h1, h2⟩ := uiPrompt_decomp [] [] [] none
  have hne : uiEditBlock ≠ [] := by decide
  refine ⟨h1, h2, hne, ?_, ?_⟩
  · rw [h1, h2, List.append_assoc]
    exact (List.sublist_append_right uiEditBlock _).append_left _
  · rw [h1, h2]
    intro h
    have hl := congrArg List.length h
    simp [List.length_append] at hl
    exact hne hl

/-- **C6 (amended)**: the edit-only block is included exactly when
`has_existing_ui` is true; there is no build-from-scratch block — the
false-mode prompt is the true-mode prompt with the edit block removed. -/
theorem c6_amended :
    ∀ (tools : List Tool) (u ctx : Str) (designs : Option DesignsDict),
      buildUiGenerationPromptBase tools u ctx true designs =
        uiPromptHeader tools u ctx designs ++ uiEditBlock ++ (uiQualityBlock ++ uiOutputBlock) ∧
      buildUiGenerationPromptBase tools u ctx false designs =
        uiPromptHeader tools u ctx designs ++ (uiQualityBlock ++ uiOutputBlock) :=
  fun tools u ctx designs => uiPrompt_decomp tools u ctx designs

/-! ## HTML extraction (`LlmChat._extract_clean_html`, llm_chat.py 809-890) -/

/-- Index of the first suffix of `s` satisfying `p` (regex `re.search`
returns the leftmost match; our patterns can be tested on a suffix). -/
def findFirstPos (p : Str → Bool) : Str → Option Nat
  | [] => if p [] then some 0 else none
  | s@(_ :: t) => if p s then some 0 else (findFirstPos p t).map (· + 1)

/-- Whether the regex `<!DOCTYPE\s+html[^>]*>` (case-insensitive)
matches at the start of `s`: the literal, at least one whitespace (the
greedy run), `html`, then any non-`>` characters up to a `>`. -/
def doctypeAt (s : Str) : Bool :=
  startsWithCIList (("<!doctype").data) s &&
    (let u := s.drop 9
     let k := (u.takeWhile pyIsSpace).length
     decide (1 ≤ k) && startsWithCIList (("html").data) (u.drop k) &&
       (u.drop (k + 4)).contains '>')

/-- Whether the regex `<html[^>]*>` (case-insensitive) matches at the
start of `s`. -/
def htmlTagAt (s : Str) : Bool :=
  startsWithCIList (("<html").data) s && (s.drop 5).contains '>'

/-- The `html_start` pattern search of `_extract_clean_html`: the
doctype pattern anywhere first, then the `<html>` pattern. -/
def startSearch (s : Str) : Option Nat :=
  match findFirstPos doctypeAt s with
  | some i => some i
  | none => findFirstPos htmlTagAt s

/-- Python `s.rfind(pat)`: index of the last occurrence of `pat`. -/
def lastOccurrence (pat : Str) : Str → Option Nat
  | [] => none
  | s@(_ :: t) =>
    match lastOccurrence pat t with
    | some i => some (i + 1)
    | none => if startsWithList pat s then some 0 else none

/-- The `html_end` computation of `_extract_clean_html`: end of the last
`</html>`, else one past the last `>`, else the length. -/
def findHtmlEnd (s : Str) : Nat :=
  match lastOccurrence (("</html>").data) s with
  | some i => i + 7
  | none =>
    match lastOccurrence ('>' :: []) s with
    | some j => j + 1
    | none => s.length

/-- One match attempt of `` ```(?:html)?\s*\n?(.*?)\n?``` `` (DOTALL) at
the start of `s`: returns the captured group and the rest of the input
after the match.  The optional word and the `\s*` run are greedy (no
backtick can hide inside them), the group is lazy, and a single `\n`
directly before the closing fence is absorbed by the trailing `\n?`. -/
def matchFenceAt (word : Str) (s : Str) : Option (Str × Str) :=
  if startsWithList (("```").data) s then
    let s1 := s.drop 3
    let s2 := if startsWithList word s1 then s1.drop word.length else s1
    let s3 := s2.drop (s2.takeWhile pyIsSpace).length
    match findFirstPos (fun u => startsWithList (("```").data) u) s3 with
    | none => none
    | some g =>
      let grp := s3.take g
      let grp2 := if grp.getLast? == some '\n' then grp.dropLast else grp
      some (grp2, s3.drop (g + 3))
  else none

/-- Regex `findall` over the fence pattern: scan left to right, taking
non-overlapping matches. -/
def fenceFindAllGo (word : Str) : Nat → Str → List Str
  | 0, _ => []
  | _, [] => []
  | fuel + 1, s@(_ :: t) =>
    match matchFenceAt word s with
    | some (grp, rest) => grp :: fenceFindAllGo word fuel rest
    | none => fenceFindAllGo word fuel t

def fenceFindAll (word s : Str) : List Str := fenceFindAllGo word s.length s

/-- The fence-stripping step of `_extract_clean_html`: if fenced blocks
are present, keep the content of the last one. -/
def fenceStripHtml (s : Str) : Str :=
  match (fenceFindAll (("html").data) s).getLast? with
  | some grp => grp
  | none => s

/-- The leading-garbage trim of `_extract_clean_html`
(`first_lt = find('<'); if first_lt > 0: slice`). -/
def dropBeforeLt (c1 : Str) : Str :=
  match c1.findIdx? (fun c => c == '<') with
  | some i => if 0 < i then c1.drop i else c1
  | none => c1

/-- The prologue repair of `_extract_clean_html`: prepend a doctype line
when the content does not case-insensitively start with `<!doctype` or
`<html`. -/
def repairStartStep (c2 : Str) : Str :=
  if startsWithCIList (("<!doctype").data) c2 || startsWithCIList (("<html").data) c2 then c2
  else ("<!DOCTYPE html>\n").data ++ c2

/-- The closing-tag repair of `_extract_clean_html`: append `</html>`
when the right-stripped content does not end with it. -/
def repairEndStep (c3 : Str) : Str :=
  if endsWithList (("</html>").data) (pyRstrip c3) then c3
  else pyRstrip c3 ++ ("\n</html>").data

/-- Translation of `LlmChat._extract_clean_html` (llm_chat.py 809-890):
fence stripping, start/end boundary detection, slice (Python
`raw[start:end]` is drop-then-take), strip, leading-garbage trim, then
the two repairs. -/
def extractCleanHtml (raw : Str) : Str :=
  if raw.isEmpty then [] else
  repairEndStep (repairStartStep (dropBeforeLt (pyStrip
    (((fenceStripHtml raw).drop ((startSearch (fenceStripHtml raw)).getD 0)).take
      (findHtmlEnd (fenceStripHtml raw) - (startSearch (fenceStripHtml raw)).getD 0)))))


/-! ## String lemmas for the extraction proofs -/

lemma charToNat_inj (a b : Char) (h : a.toNat = b.toNat) : a = b := by
  have h2 := congrArg Char.ofNat h
  rwa [Char.ofNat_toNat, Char.ofNat_toNat] at h2

lemma charEqCI_lt (c : Char) (h : charEqCI '<' c = true) : c = '<' := by
  unfold charEqCI at h
  have h1 : lowerNat (Char.toNat '<') = lowerNat c.toNat := by simpa using h
  have h2 : lowerNat c.toNat = 60 := by rw [← h1]; decide
  have h3 : c.toNat = 60 := by unfold lowerNat at h2; split at h2 <;> omega
  have h4 : Char.toNat '<' = 60 := by decide
  exact charToNat_inj c '<' (by rw [h3, h4])

lemma startsWith_iff (p s : Str) : startsWithList p s = true ↔ ∃ r, s = p ++ r := by
  induction p generalizing s with
  | nil => simp [startsWithList]
  | cons x ps ih =>
    cases s with
    | nil => simp [startsWithList]
    | cons c cs =>
      simp only [startsWithList, Bool.and_eq_true, beq_iff_eq, ih, List.cons_append,
        List.cons.injEq]
      constructor
      · rintro ⟨rfl, r, rfl⟩; exact ⟨r, rfl, rfl⟩
      · rintro ⟨r, rfl, rfl⟩; exact ⟨rfl, r, rfl⟩

lemma endsWith_iff (p s : Str) : endsWithList p s = true ↔ ∃ w, s = w ++ p := by
  unfold endsWithList
  rw [startsWith_iff]
  constructor
  · rintro ⟨r, h⟩
    refine ⟨r.reverse, ?_⟩
    have h2 := congrArg List.reverse h
    simpa [List.reverse_append] using h2
  · rintro ⟨w, rfl⟩
    exact ⟨w.reverse, by simp [List.reverse_append]⟩

lemma startsWith_length (p s : Str) (h : startsWithList p s = true) : p.length ≤ s.length := by
  obtain ⟨r, rfl⟩ := (startsWith_iff p s).1 h
  simp

lemma startsCI_append (p : Str) : ∀ u v : Str, startsWithCIList p u = true →
    startsWithCIList p (u ++ v) = true := by
  induction p with
  | nil => intro u v _; simp [startsWithCIList]
  | cons x ps ih =>
    intro u v h
    cases u with
    | nil => simp [startsWithCIList] at h
    | cons c cs =>
      simp only [startsWithCIList, Bool.and_eq_true] at h ⊢
      exact ⟨h.1, ih cs v h.2⟩

lemma head?_dropWhile_not (p : Char → Bool) (l : Str) :
    ∀ c, (l.dropWhile p).head? = some c → p c = false := by
  induction l with
  | nil => intro c h; simp [List.dropWhile] at h
  | cons a t ih =>
    intro c h
    by_cases ha : p a
    · rw [List.dropWhile_cons_of_pos ha] at h; exact ih c h
    · rw [List.dropWhile_cons_of_neg ha] at h
      simp at h
      rw [← h]
      simpa using ha

/-- No trailing whitespace (Boolean form). -/
def noTrailWsB (t : Str) : Bool :=
  match t.getLast? with
  | none => true
  | some c => !pyIsSpace c

lemma noTrail_rstrip (s : Str) : noTrailWsB (pyRstrip s) = true := by
  unfold noTrailWsB pyRstrip
  rw [List.getLast?_reverse]
  cases h : (s.reverse.dropWhile pyIsSpace).head? with
  | none => simp
  | some c => simp [head?_dropWhile_not pyIsSpace s.reverse c h]

lemma noTrail_strip (s : Str) : noTrailWsB (pyStrip s) = true := noTrail_rstrip _

lemma rstrip_self (s : Str) (h : noTrailWsB s = true) : pyRstrip s = s := by
  unfold noTrailWsB at h
  unfold pyRstrip
  cases hs : s.reverse with
  | nil =>
    have : s = [] := by simpa using congrArg List.reverse hs
    simp [this]
  | cons a t =>
    have hl : s.getLast? = some a := by
      rw [← List.head?_reverse, hs]; rfl
    rw [hl] at h
    simp only [Bool.not_eq_true'] at h
    rw [List.dropWhile_cons_of_neg (by simp [h]), ← hs, List.reverse_reverse]

lemma noTrail_drop (s : Str) (i : Nat) (h : noTrailWsB s = true) :
    noTrailWsB (s.drop i) = true := by
  unfold noTrailWsB at h ⊢
  cases hd : (s.drop i).getLast? with
  | none => simp
  | some c =>
    have hs : s.getLast? = some c := by
      conv_lhs => rw [← List.take_append_drop i s]
      rw [List.getLast?_append, hd]
      rfl
    rw [hs] at h
    exact h

lemma noTrail_append (u v : Str) (hv : v ≠ []) (h : noTrailWsB v = true) :
    noTrailWsB (u ++ v) = true := by
  unfold noTrailWsB at h ⊢
  rw [List.getLast?_append]
  cases hc : v.getLast? with
  | none => exact absurd (List.getLast?_eq_none_iff.1 hc) hv
  | some c => rw [hc] at h; simpa using h

lemma lastOcc_short (pat : Str) : ∀ s : Str, s.length < pat.length →
    lastOccurrence pat s = none := by
  intro s
  induction s with
  | nil => intro _; rfl
  | cons c t ih =>
    intro h
    have hlc : (c :: t).length = t.length + 1 := by simp
    have ht : t.length < pat.length := by omega
    unfold lastOccurrence
    rw [ih ht]
    have hns : startsWithList pat (c :: t) ≠ true := by
      intro hs
      have hlen := startsWith_length pat (c :: t) hs
      omega
    simp [hns]

lemma lastOcc_ends (pat : Str) (hp : pat ≠ []) :
    ∀ w : Str, lastOccurrence pat (w ++ pat) = some w.length := by
  intro w
  induction w with
  | nil =>
    cases pat with
    | nil => exact absurd rfl hp
    | cons p ps =>
      simp only [List.nil_append]
      unfold lastOccurrence
      have hshort : lastOccurrence (p :: ps) ps = none :=
        lastOcc_short (p :: ps) ps (by simp)
      rw [hshort]
      have hself : startsWithList (p :: ps) (p :: ps) = true :=
        (startsWith_iff _ _).2 ⟨[], by simp⟩
      simp [hself]
  | cons c w' ih =>
    have hcons : (c :: w') ++ pat = c :: (w' ++ pat) := by simp
    rw [hcons]
    unfold lastOccurrence
    rw [ih]
    simp

lemma findHtmlEnd_ends (s : Str) (h : endsWithList (("</html>").data) s = true) :
    findHtmlEnd s = s.length := by
  obtain ⟨w, rfl⟩ := (endsWith_iff _ s).1 h
  unfold findHtmlEnd
  rw [lastOcc_ends (("</html>").data) (by decide) w]
  simp

lemma noTrail_dropBeforeLt (s : Str) (h : noTrailWsB s = true) :
    noTrailWsB (dropBeforeLt s) = true := by
  unfold dropBeforeLt
  cases hf : s.findIdx? (fun c => c == '<') with
  | none => exact h
  | some i =>
    dsimp only
    by_cases hi : 0 < i
    · rw [if_pos hi]; exact noTrail_drop s i h
    · rw [if_neg hi]; exact h

lemma ends_append_close (w : Str) :
    endsWithList (("</html>").data) (w ++ ("\n</html>").data) = true := by
  apply (endsWith_iff _ _).2
  refine ⟨w ++ ['\n'], ?_⟩
  rw [show ("\n</html>").data = '\n' :: ("</html>").data from by decide]
  simp

lemma repair_form (c2 : Str) (h2 : noTrailWsB c2 = true) :
    (startsWithCIList (("<!doctype").data) (repairEndStep (repairStartStep c2)) = true ∨
     startsWithCIList (("<html").data) (repairEndStep (repairStartStep c2)) = true) ∧
    endsWithList (("</html>").data) (repairEndStep (repairStartStep c2)) = true ∧
    noTrailWsB (repairEndStep (repairStartStep c2)) = true ∧
    repairEndStep (repairStartStep c2) ≠ [] := by
  unfold repairStartStep
  by_cases hc : (startsWithCIList (("<!doctype").data) c2 ||
      startsWithCIList (("<html").data) c2) = true
  · rw [if_pos hc]
    have hne : c2 ≠ [] := by
      intro hz; subst hz; exact absurd hc (by decide)
    have hr : pyRstrip c2 = c2 := rstrip_self c2 h2
    unfold repairEndStep
    rw [hr]
    by_cases he : endsWithList (("</html>").data) c2 = true
    · rw [if_pos he]
      exact ⟨by simpa using hc, he, h2, hne⟩
    · rw [if_neg he]
      refine ⟨?_, ends_append_close c2, ?_, by simp⟩
      · rcases (by simpa using hc :
            startsWithCIList (("<!doctype").data) c2 = true ∨
            startsWithCIList (("<html").data) c2 = true) with h | h
        · exact Or.inl (startsCI_append _ _ _ h)
        · exact Or.inr (startsCI_append _ _ _ h)
      · exact noTrail_append _ _ (by decide) (by decide)
  · rw [if_neg hc]
    by_cases hz : c2 = []
    · subst hz
      simp only [List.append_nil]
      exact ⟨Or.inl (by decide), by decide, by decide, by decide⟩
    · have h3 : noTrailWsB (("<!DOCTYPE html>\n").data ++ c2) = true := noTrail_append _ _ hz h2
      have hr : pyRstrip (("<!DOCTYPE html>\n").data ++ c2) = ("<!DOCTYPE html>\n").data ++ c2 :=
        rstrip_self _ h3
      have hstart : startsWithCIList (("<!doctype").data) (("<!DOCTYPE html>\n").data ++ c2) = true :=
        startsCI_append _ _ _ (by decide)
      unfold repairEndStep
      rw [hr]
      by_cases he : endsWithList (("</html>").data) (("<!DOCTYPE html>\n").data ++ c2) = true
      · rw [if_pos he]
        exact ⟨Or.inl hstart, he, h3, by simp⟩
      · rw [if_neg he]
        exact ⟨Or.inl (startsCI_append _ _ _ hstart), ends_append_close _,
          noTrail_append _ _ (by decide) (by decide), by simp⟩

lemma extract_form (raw : Str) (h : raw ≠ []) :
    (startsWithCIList (("<!doctype").data) (extractCleanHtml raw) = true ∨
     startsWithCIList (("<html").data) (extractCleanHtml raw) = true) ∧
    endsWithList (("</html>").data) (extractCleanHtml raw) = true ∧
    noTrailWsB (extractCleanHtml raw) = true ∧
    extractCleanHtml raw ≠ [] := by
  unfold extractCleanHtml
  rw [if_neg (by simp [List.isEmpty_iff, h])]
  exact repair_form _ (noTrail_dropBeforeLt _ (noTrail_strip _))

lemma starts_head_lt (s : Str)
    (h : startsWithCIList (("<!doctype").data) s = true ∨
         startsWithCIList (("<html").data) s = true) :
    ∃ s', s = '<' :: s' := by
  rcases h with h | h
  · rw [show ("<!doctype").data = '<' :: ("!doctype").data from by decide] at h
    cases s with
    | nil => simp [startsWithCIList] at h
    | cons c cs =>
      simp only [startsWithCIList, Bool.and_eq_true] at h
      exact ⟨cs, by rw [charEqCI_lt c h.1]⟩
  · rw [show ("<html").data = '<' :: ("html").data from by decide] at h
    cases s with
    | nil => simp [startsWithCIList] at h
    | cons c cs =>
      simp only [startsWithCIList, Bool.and_eq_true] at h
      exact ⟨cs, by rw [charEqCI_lt c h.1]⟩

/-- **C3**: for every non-empty raw model response, the output of
`_extract_clean_html` starts (case-insensitively) with `<!doctype` or
`<html` and ends with `</html>`; and on the input
`"<div>no doctype</div>"` the output starts with `<!DOCTYPE html>` and
ends with `</html>` (it is exactly the repaired document). -/
theorem c3_extract_repairs (raw : Str) (h : raw ≠ []) :
    ((startsWithCIList (("<!doctype").data) (extractCleanHtml raw) = true ∨
      startsWithCIList (("<html").data) (extractCleanHtml raw) = true) ∧
     endsWithList (("</html>").data) (extractCleanHtml raw) = true) ∧
    startsWithList (("<!DOCTYPE html>").data)
      (extractCleanHtml (("<div>no doctype</div>").data)) = true ∧
    endsWithList (("</html>").data)
      (extractCleanHtml (("<div>no doctype</div>").data)) = true := by
  obtain ⟨h1, h2, _, _⟩ := extract_form raw h
  exact ⟨⟨h1, h2⟩, by decide, by decide⟩

/-- Witness for C3 at the concrete input of the claim. -/
theorem c3_extract_repairs_witness :
    (startsWithCIList (("<!doctype").data)
        (extractCleanHtml (("<div>no doctype</div>").data)) = true ∨
      startsWithCIList (("<html").data)
        (extractCleanHtml (("<div>no doctype</div>").data)) = true) ∧
    endsWithList (("</html>").data)
      (extractCleanHtml (("<div>no doctype</div>").data)) = true :=
  (c3_extract_repairs (("<div>no doctype</div>").data) (by decide)).1

/-- **C4 counterexample**: `_extract_clean_html` is not idempotent.  On
the input `"x<!doctypeZ stuff <!doctype html"` the first pass keeps the
junk prefix (no start pattern matches, offset 0 fallback) and appends
`</html>`; that closing tag completes a doctype-pattern match inside the
output, so the second pass slices the prefix away and returns a
different string. -/
theorem c4_counterexample :
    extractCleanHtml (extractCleanHtml (("x<!doctypeZ stuff <!doctype html").data)) ≠
      extractCleanHtml (("x<!doctypeZ stuff <!doctype html").data) := by decide

/-- **C4 (amended)**: extraction is a fixed point on its own output
whenever the output is fence-free (the fence scan leaves it unchanged)
and the HTML-start pattern search on the output either matches at offset
0 or fails (so the slice starts at 0, as it did on the first pass).  The
counterexample shows the general claim is false when a later doctype
match appears inside the output. -/
theorem c4_amended (x : Str)
    (h1 : fenceStripHtml (extractCleanHtml x) = extractCleanHtml x)
    (h2 : startSearch (extractCleanHtml x) = some 0 ∨
          startSearch (extractCleanHtml x) = none) :
    extractCleanHtml (extractCleanHtml x) = extractCleanHtml x := by
  by_cases hx : x = []
  · subst hx; rfl
  · obtain ⟨hstart, hend, hnt, hne⟩ := extract_form x hx
    obtain ⟨s', hs'⟩ := starts_head_lt (extractCleanHtml x) hstart
    have hgd : (startSearch (extractCleanHtml x)).getD 0 = 0 := by
      rcases h2 with h | h <;> simp [h]
    conv_lhs => rw [extractCleanHtml]
    rw [if_neg (by simp [List.isEmpty_iff, hne])]
    rw [h1, hgd, findHtmlEnd_ends _ hend, List.drop_zero, Nat.sub_zero, List.take_length]
    have hstrip : pyStrip (extractCleanHtml x) = extractCleanHtml x := by
      unfold pyStrip
      have hl : pyLstrip (extractCleanHtml x) = extractCleanHtml x := by
        unfold pyLstrip
        rw [hs', List.dropWhile_cons_of_neg (by decide)]
      rw [hl]
      exact rstrip_self _ hnt
    rw [hstrip]
    have hdbl : dropBeforeLt (extractCleanHtml x) = extractCleanHtml x := by
      unfold dropBeforeLt
      rw [hs']
      simp [List.findIdx?_cons]
    rw [hdbl]
    have hrs : repairStartStep (extractCleanHtml x) = extractCleanHtml x := by
      unfold repairStartStep
      rw [if_pos (by rcases hstart with h | h <;> simp [h])]
    rw [hrs]
    unfold repairEndStep
    rw [rstrip_self _ hnt, if_pos hend]

/-- Witness for C4 (amended) at a concrete fixed input. -/
theorem c4_amended_witness :
    extractCleanHtml (extractCleanHtml (("<html><body>hi</body></html>").data)) =
      extractCleanHtml (("<html><body>hi</body></html>").data) :=
  c4_amended (("<html><body>hi</body></html>").data) (by decide) (Or.inl (by decide))

/-! ## Text-response HTML cleaning (`LlmChat._clean_html_from_text`,
llm_chat.py 1031-1076) -/

/-- One scan of `re.sub(r'<[^>]+>', '', text)`: at a `<`, the greedy
`[^>]+` runs to the first later `>`; the match needs at least one
character between them, otherwise scanning moves on by one character. -/
def tagSubGo : Nat → Str → Str
  | _, [] => []
  | 0, s => s
  | fuel + 1, c :: rest =>
    if c == '<' then
      match rest.dropWhile (fun x => !(x == '>')) with
      | _ :: b =>
        if (rest.takeWhile (fun x => !(x == '>'))).isEmpty then c :: tagSubGo fuel rest
        else tagSubGo fuel b
      | [] => c :: tagSubGo fuel rest
    else c :: tagSubGo fuel rest

def tagSub (s : Str) : Str := tagSubGo s.length s

/-- One match attempt of `<tag[^>]*>.*?</tag>` (DOTALL, IGNORECASE) at
the start of `s`; on success returns the input after the match. -/
def matchBlockAt (tag : Str) (s : Str) : Option Str :=
  if startsWithCIList ('<' :: tag) s then
    match (s.drop (1 + tag.length)).dropWhile (fun x => !(x == '>')) with
    | [] => none
    | _ :: v =>
      match findFirstPos (fun w => startsWithCIList (('<' :: '/' :: tag) ++ ['>']) w) v with
      | none => none
      | some k => some (v.drop (k + (tag.length + 3)))
  else none

/-- Scanning `re.sub` for the block pattern. -/
def blockSubGo (tag : Str) : Nat → Str → Str
  | _, [] => []
  | 0, s => s
  | fuel + 1, s@(c :: t) =>
    match matchBlockAt tag s with
    | some rest => blockSubGo tag fuel rest
    | none => c :: blockSubGo tag fuel t

def blockSub (tag s : Str) : Str := blockSubGo tag s.length s

/-- Python `str.replace` (all non-overlapping occurrences, left to
right).  The entity patterns of the source are never empty. -/
def replaceAllGo (pat rep : Str) : Nat → Str → Str
  | _, [] => []
  | 0, s => s
  | fuel + 1, s@(c :: t) =>
    if pat.isEmpty then s
    else if startsWithList pat s then rep ++ replaceAllGo pat rep fuel (s.drop pat.length)
    else c :: replaceAllGo pat rep fuel t

def pyReplace (s pat rep : Str) : Str := replaceAllGo pat rep s.length s

/-- Python `re.sub(r'\n{3,}', '\n\n', text)`: a run of three or more
newlines collapses to two. -/
def collapseGo : Nat → Str → Str
  | _, [] => []
  | 0, s => s
  | fuel + 1, s@(c :: t) =>
    if c == '\n' then
      (if 3 ≤ (s.takeWhile (fun x => x == '\n')).length then '\n' :: '\n' :: []
       else s.takeWhile (fun x => x == '\n')) ++
        collapseGo fuel (s.dropWhile (fun x => x == '\n'))
    else c :: collapseGo fuel t

def collapseNewlines (s : Str) : Str := collapseGo s.length s

/-- The entity table of `_clean_html_from_text`, in source order. -/
def htmlEntities : List (Str × Str) :=
  [(("&lt;").data, ("<").data),
   (("&gt;").data, (">").data),
   (("&amp;").data, ("&").data),
   (("&quot;").data, ("\"").data),
   (("&#39;").data, ("\x27").data),
   (("&nbsp;").data, (" ").data),
   (("&mdash;").data, ("—").data),
   (("&ndash;").data, ("–").data)]

def applyEntities (s : Str) : Str :=
  htmlEntities.foldl (fun acc e => pyReplace acc e.1 e.2) s

/-- Translation of `LlmChat._clean_html_from_text` (llm_chat.py
1031-1076): tag removal, script/style block removal, entity
replacement, newline collapsing, strip. -/
def cleanHtmlFromText (text : Str) : Str :=
  if text.isEmpty then text else
  pyStrip (collapseNewlines (applyEntities
    (blockSub (("style").data) (blockSub (("script").data) (tagSub text)))))

/-- The return path of `_generate_text_response_with_provider`
(llm_chat.py 324-331): a successfully obtained provider response is
cleaned before being returned; a raised provider call propagates (here:
`none`). -/
def generateTextResponseWithProvider (providerRaw : Option Str) : Option Str :=
  providerRaw.map cleanHtmlFromText

/-- Whether `s` begins the interior of a tag: some non-`>` characters
(at least one) and then a `>`. -/
def tagAtHead (rest : Str) : Bool :=
  !(rest.takeWhile (fun x => !(x == '>'))).isEmpty &&
    !(rest.dropWhile (fun x => !(x == '>'))).isEmpty

/-- Whether `s` contains a substring matching `<[^>]+>`. -/
def hasTag : Str → Bool
  | [] => false
  | c :: rest => ((c == '<') && tagAtHead rest) || hasTag rest


/-! ## Lemmas for the tag-removal invariant -/

lemma hasTag_tail {c : Char} {t : Str} (h : hasTag (c :: t) = false) : hasTag t = false := by
  simp [hasTag] at h
  exact h.2

lemma hasTag_cons_of_tail {c : Char} {t : Str} (h : hasTag t = true) :
    hasTag (c :: t) = true := by
  simp [hasTag, h]

lemma hasTag_dropWhile (p : Char → Bool) (s : Str) (h : hasTag s = false) :
    hasTag (s.dropWhile p) = false := by
  induction s with
  | nil => exact h
  | cons c t ih =>
    by_cases hp : p c
    · rw [List.dropWhile_cons_of_pos hp]
      exact ih (hasTag_tail h)
    · rw [List.dropWhile_cons_of_neg hp]
      exact h

lemma all_of_dropWhile_nil (p : Char → Bool) (l : Str) (h : l.dropWhile p = []) :
    ∀ x ∈ l, p x = true := by
  induction l with
  | nil => intro x hx; simp at hx
  | cons c t ih =>
    by_cases hp : p c
    · rw [List.dropWhile_cons_of_pos hp] at h
      intro x hx
      rcases List.mem_cons.1 hx with rfl | hx
      · exact hp
      · exact ih h x hx
    · rw [List.dropWhile_cons_of_neg hp] at h
      simp at h
lemma dropWhile_nil_of_all (p : Char → Bool) (l : Str) (h : ∀ x ∈ l, p x = true) :
    l.dropWhile p = [] := by
  induction l with
  | nil => rfl
  | cons c t ih =>
    rw [List.dropWhile_cons_of_pos (h c (by simp))]
    exact ih (fun x hx => h x (by simp [hx]))

lemma gt_not_mem_dropWhile_nil (l : Str) (h : '>' ∉ l) :
    l.dropWhile (fun x => !(x == '>')) = [] := by
  apply dropWhile_nil_of_all
  intro x hx
  have hne : x ≠ '>' := fun he => h (he ▸ hx)
  simp [hne]

lemma mem_tagSubGo : ∀ (fuel : Nat) (s : Str), ∀ x, x ∈ tagSubGo fuel s → x ∈ s := by
  intro fuel
  induction fuel with
  | zero =>
    intro s x h
    cases s with
    | nil => simpa [tagSubGo] using h
    | cons c t => simpa [tagSubGo] using h
  | succ f ih =>
    intro s x h
    cases s with
    | nil => simpa [tagSubGo] using h
    | cons c rest =>
      by_cases hc : c == '<'
      · cases hdw : rest.dropWhile (fun y => !(y == '>')) with
        | nil =>
          simp only [tagSubGo, hc, if_true, hdw] at h
          rcases List.mem_cons.1 h with rfl | h
          · exact List.mem_cons_self _ _
          · exact List.mem_cons_of_mem _ (ih rest x h)
        | cons g b =>
          by_cases hte : (rest.takeWhile (fun y => !(y == '>'))).isEmpty = true
          · simp only [tagSubGo, hc, if_true, hdw, hte, if_true] at h
            rcases List.mem_cons.1 h with rfl | h
            · exact List.mem_cons_self _ _
            · exact List.mem_cons_of_mem _ (ih rest x h)
          · simp only [tagSubGo, hc, if_true, hdw, hte] at h
            simp only [Bool.false_eq_true, if_false] at h
            have hb : x ∈ b := ih b x h
            have hsplit := List.takeWhile_append_dropWhile
              (p := fun y => !(y == '>')) (l := rest)
            rw [hdw] at hsplit
            apply List.mem_cons_of_mem
            rw [← hsplit]
            exact List.mem_append_right _ (List.mem_cons_of_mem _ hb)
      · simp only [tagSubGo, hc, if_false] at h
        rw [if_neg (by simpa using hc)] at h
        rcases List.mem_cons.1 h with rfl | h
        · exact List.mem_cons_self _ _
        · exact List.mem_cons_of_mem _ (ih rest x h)

lemma gtHead_tagSubGo (fuel : Nat) (b : Str) :
    ∃ w, tagSubGo fuel ('>' :: b) = '>' :: w := by
  cases fuel with
  | zero => exact ⟨b, rfl⟩
  | succ f =>
    refine ⟨tagSubGo f b, ?_⟩
    simp [tagSubGo]

lemma tagAtHead_gtHead (w : Str) : tagAtHead ('>' :: w) = false := by
  simp [tagAtHead, List.takeWhile_cons]

lemma tagAtHead_of_not_mem_gt (l : Str) (h : '>' ∉ l) : tagAtHead l = false := by
  unfold tagAtHead
  rw [gt_not_mem_dropWhile_nil l h]
  simp

lemma hasTag_tagSubGo : ∀ (fuel : Nat) (s : Str), s.length ≤ fuel →
    hasTag (tagSubGo fuel s) = false := by
  intro fuel
  induction fuel with
  | zero =>
    intro s hf
    have hs : s = [] := by
      cases s with
      | nil => rfl
      | cons c t => simp at hf
    subst hs
    rfl
  | succ f ih =>
    intro s hf
    cases s with
    | nil => rfl
    | cons c rest =>
      have hrest : rest.length ≤ f := by
        simp [List.length_cons] at hf
        omega
      by_cases hc : c == '<'
      · cases hdw : rest.dropWhile (fun y => !(y == '>')) with
        | nil =>
          simp only [tagSubGo, hc, if_true, hdw]
          have hng : '>' ∉ rest := by
            intro hm
            have := all_of_dropWhile_nil _ rest hdw '>' hm
            simp at this
          have hng2 : '>' ∉ tagSubGo f rest := fun hm => hng (mem_tagSubGo f rest _ hm)
          simp [hasTag, tagAtHead_of_not_mem_gt _ hng2, ih rest hrest]
        | cons g b =>
          by_cases hte : (rest.takeWhile (fun y => !(y == '>'))).isEmpty = true
          · simp only [tagSubGo, hc, if_true, hdw, hte, if_true]
            cases rest with
            | nil => simp [List.dropWhile] at hdw
            | cons r0 rt =>
              have hr0 : (r0 == '>') = true := by
                by_contra hn
                rw [List.takeWhile_cons_of_pos (by simpa using hn)] at hte
                simp at hte
              have hr0e : r0 = '>' := beq_iff_eq.1 hr0
              subst hr0e
              obtain ⟨w, hw⟩ := gtHead_tagSubGo f rt
              have hT : hasTag ('>' :: w) = false := by
                rw [← hw]
                exact ih _ hrest
              simp [hasTag, hw, tagAtHead_gtHead, hT]
          · simp only [tagSubGo, hc, if_true, hdw, hte]
            simp only [Bool.false_eq_true, if_false]
            apply ih b
            have hsplit := List.takeWhile_append_dropWhile
              (p := fun y => !(y == '>')) (l := rest)
            rw [hdw] at hsplit
            have hlen := congrArg List.length hsplit
            simp [List.length_append] at hlen
            omega
      · simp only [tagSubGo, hc]
        rw [if_neg (by simpa using hc)]
        simp [hasTag, hc, ih rest hrest]

lemma hasTag_tagSub (s : Str) : hasTag (tagSub s) = false :=
  hasTag_tagSubGo s.length s le_rfl

lemma matchBlockAt_none_of_noTag (a : Char) (as : Str) (hne : lowerNat a.toNat ≠ 62)
    (s : Str) (h : hasTag s = false) : matchBlockAt (a :: as) s = none := by
  unfold matchBlockAt
  by_cases hs : startsWithCIList ('<' :: (a :: as)) s = true
  · rw [if_pos hs]
    cases s with
    | nil => simp [startsWithCIList] at hs
    | cons c0 t0 =>
      simp only [startsWithCIList, Bool.and_eq_true] at hs
      cases t0 with
      | nil => simp [startsWithCIList] at hs
      | cons c1 t1 =>
        simp only [startsWithCIList, Bool.and_eq_true] at hs
        have hc0 : c0 = '<' := charEqCI_lt c0 hs.1
        have hc1 : (c1 == '>') = false := by
          by_contra hb
          have hc1e : c1 = '>' := beq_iff_eq.1 (by simpa using hb)
          have hci := hs.2.1
          unfold charEqCI at hci
          have heq : lowerNat a.toNat = lowerNat c1.toNat := by simpa using hci
          rw [hc1e] at heq
          have h62 : lowerNat (Char.toNat '>') = 62 := by decide
          exact hne (by rw [heq, h62])
        subst hc0
        have hta : tagAtHead (c1 :: t1) = false := by
          simp [hasTag] at h
          exact h.1
        have htw : ((c1 :: t1).takeWhile (fun x => !(x == '>'))).isEmpty = false := by
          rw [List.takeWhile_cons_of_pos (by simp [hc1])]
          simp
        have hdw : (c1 :: t1).dropWhile (fun x => !(x == '>')) = [] := by
          unfold tagAtHead at hta
          rw [htw] at hta
          simp at hta
          apply dropWhile_nil_of_all
          intro x hx
          rcases List.mem_cons.1 hx with rfl | hx
          · simp [hta.1]
          · simp [hta.2 x hx]
        have hall := all_of_dropWhile_nil _ _ hdw
        have hsub : (('<' :: c1 :: t1).drop (1 + (a :: as).length)).dropWhile
            (fun x => !(x == '>')) = [] := by
          apply dropWhile_nil_of_all
          intro x hx
          apply hall
          have hx2 : x ∈ ('<' :: c1 :: t1).drop (1 + (a :: as).length) := hx
          have hd : ('<' :: c1 :: t1).drop (1 + (a :: as).length) =
              (c1 :: t1).drop (a :: as).length := by
            rw [Nat.add_comm, List.drop_succ_cons]
          rw [hd] at hx2
          exact List.drop_subset _ _ hx2
        rw [hsub]
  · rw [if_neg hs]

lemma blockSubGo_id (a : Char) (as : Str) (hne : lowerNat a.toNat ≠ 62) :
    ∀ (fuel : Nat) (s : Str), hasTag s = false → blockSubGo (a :: as) fuel s = s := by
  intro fuel
  induction fuel with
  | zero =>
    intro s _
    cases s with
    | nil => rfl
    | cons c t => rfl
  | succ f ih =>
    intro s h
    cases s with
    | nil => rfl
    | cons c t =>
      simp only [blockSubGo, matchBlockAt_none_of_noTag a as hne _ h]
      rw [ih t (hasTag_tail h)]

lemma blockSub_id (a : Char) (as : Str) (hne : lowerNat a.toNat ≠ 62) (s : Str)
    (h : hasTag s = false) : blockSub (a :: as) s = s :=
  blockSubGo_id a as hne s.length s h

lemma mem_collapseGo : ∀ (fuel : Nat) (s : Str), ∀ x, x ∈ collapseGo fuel s → x ∈ s := by
  intro fuel
  induction fuel with
  | zero =>
    intro s x h
    cases s with
    | nil => simpa [collapseGo] using h
    | cons c t => simpa [collapseGo] using h
  | succ f ih =>
    intro s x h
    cases s with
    | nil => simpa [collapseGo] using h
    | cons c t =>
      by_cases hc : c == '\n'
      · simp only [collapseGo, hc, if_true] at h
        rcases List.mem_append.1 h with h | h
        · by_cases h3 : 3 ≤ ((c :: t).takeWhile (fun x => x == '\n')).length
          · rw [if_pos h3] at h
            have hx : x = '\n' := by
              rcases List.mem_cons.1 h with rfl | h
              · rfl
              · rcases List.mem_cons.1 h with rfl | h
                · rfl
                · simp at h
            rw [hx]
            exact List.mem_cons.2 (Or.inl (beq_iff_eq.1 hc).symm)
          · rw [if_neg h3] at h
            exact (List.takeWhile_sublist _).subset h
        · exact (List.dropWhile_sublist _).subset (ih _ x h)
      · simp only [collapseGo, hc] at h
        rw [if_neg (by simpa using hc)] at h
        rcases List.mem_cons.1 h with rfl | h
        · exact List.mem_cons_self _ _
        · exact List.mem_cons_of_mem _ (ih t x h)

lemma gtHead_collapseGo (fuel : Nat) (b : Str) :
    ∃ w, collapseGo fuel ('>' :: b) = '>' :: w := by
  cases fuel with
  | zero => exact ⟨b, rfl⟩
  | succ f =>
    refine ⟨collapseGo f b, ?_⟩
    simp [collapseGo]

lemma mem_takeWhile_pred (p : Char → Bool) : ∀ (l : Str) (x : Char),
    x ∈ l.takeWhile p → p x = true := by
  intro l
  induction l with
  | nil => intro x hx; simp [List.takeWhile] at hx
  | cons c t ih =>
    intro x hx
    by_cases hp : p c
    · rw [List.takeWhile_cons_of_pos hp] at hx
      rcases List.mem_cons.1 hx with rfl | hx
      · exact hp
      · exact ih x hx
    · rw [List.takeWhile_cons_of_neg hp] at hx
      simp at hx

lemma hasTag_prepend_all_nl (u T : Str) (hu : ∀ x ∈ u, x = '\n') :
    hasTag (u ++ T) = hasTag T := by
  induction u with
  | nil => rfl
  | cons c u' ih =>
    have hc : c = '\n' := hu c (by simp)
    subst hc
    rw [List.cons_append]
    simp only [hasTag]
    rw [ih (fun x hx => hu x (by simp [hx]))]
    simp

lemma hasTag_collapseGo : ∀ (fuel : Nat) (s : Str), hasTag s = false →
    hasTag (collapseGo fuel s) = false := by
  intro fuel
  induction fuel with
  | zero =>
    intro s h
    cases s with
    | nil => exact h
    | cons c t => exact h
  | succ f ih =>
    intro s h
    cases s with
    | nil => exact h
    | cons c t =>
      by_cases hc : c == '\n'
      · simp only [collapseGo, hc, if_true]
        have hrest : hasTag ((c :: t).dropWhile (fun x => x == '\n')) = false :=
          hasTag_dropWhile _ _ h
        have hT := ih _ hrest
        by_cases h3 : 3 ≤ ((c :: t).takeWhile (fun x => x == '\n')).length
        · rw [if_pos h3]
          rw [hasTag_prepend_all_nl _ _ (by intro x hx; simp at hx; rcases hx with rfl | rfl <;> rfl)]
          exact hT
        · rw [if_neg h3]
          rw [hasTag_prepend_all_nl _ _ ?side]
          · exact hT
          case side =>
            intro x hx
            exact beq_iff_eq.1 (mem_takeWhile_pred _ _ x hx)
      · simp only [collapseGo, hc]
        rw [if_neg (by simpa using hc)]
        have hT := ih t (hasTag_tail h)
        by_cases hlt : c == '<'
        · have hta : tagAtHead t = false := by
            simp [hasTag, beq_iff_eq.1 hlt] at h
            exact h.1
          have htaT : tagAtHead (collapseGo f t) = false := by
            cases t with
            | nil =>
              cases f <;> simp [collapseGo, tagAtHead, List.takeWhile, List.dropWhile]
            | cons r0 rt =>
              by_cases hr0 : r0 == '>'
              · have hr0e : r0 = '>' := beq_iff_eq.1 hr0
                subst hr0e
                obtain ⟨w, hw⟩ := gtHead_collapseGo f rt
                rw [hw]
                exact tagAtHead_gtHead w
              · have htw : ((r0 :: rt).takeWhile (fun x => !(x == '>'))).isEmpty = false := by
                  rw [List.takeWhile_cons_of_pos (by simp [hr0])]
                  simp
                have hdw : (r0 :: rt).dropWhile (fun x => !(x == '>')) = [] := by
                  unfold tagAtHead at hta
                  rw [htw] at hta
                  simp at hta
                  apply dropWhile_nil_of_all
                  intro x hx
                  rcases List.mem_cons.1 hx with rfl | hx
                  · simp [hta.1]
                  · simp [hta.2 x hx]
                have hall := all_of_dropWhile_nil _ _ hdw
                apply tagAtHead_of_not_mem_gt
                intro hm
                have hmem := mem_collapseGo f (r0 :: rt) '>' hm
                have := hall '>' hmem
                simp at this
          simp [hasTag, htaT, hT]
        · simp [hasTag, hlt, hT]

lemma hasTag_append_mono (u v : Str) (h : hasTag u = true) : hasTag (u ++ v) = true := by
  induction u with
  | nil => simp [hasTag] at h
  | cons c u' ih =>
    simp only [hasTag, Bool.or_eq_true, Bool.and_eq_true] at h
    rcases h with ⟨hc, hta⟩ | h
    · rw [List.cons_append]
      simp only [hasTag, Bool.or_eq_true, Bool.and_eq_true]
      left
      refine ⟨hc, ?_⟩
      unfold tagAtHead at hta ⊢
      simp only [Bool.and_eq_true, Bool.not_eq_true'] at hta
      cases u' with
      | nil => simp [List.dropWhile] at hta
      | cons x u'' =>
        have hx : (!(x == '>')) = true := by
          by_contra hb
          rw [List.takeWhile_cons_of_neg (by simpa using hb)] at hta
          simp at hta
        rw [List.cons_append, List.takeWhile_cons_of_pos (p := fun y => !(y == '>')) hx]
        have hdw : (x :: u'').dropWhile (fun y => !(y == '>')) ≠ [] := by
          intro hz
          rw [hz] at hta
          simp at hta
        rw [List.dropWhile_cons_of_pos (p := fun y => !(y == '>')) hx] at hdw ⊢
        rw [List.dropWhile_append]
        simp only [Bool.and_eq_true, Bool.not_eq_true']
        constructor
        · simp
        · rw [if_neg (by simpa using hdw)]
          simp [hdw]
    · rw [List.cons_append]
      exact hasTag_cons_of_tail (ih h)

lemma rstrip_decomp (w : Str) :
    w = pyRstrip w ++ (w.reverse.takeWhile pyIsSpace).reverse := by
  unfold pyRstrip
  conv_lhs => rw [← List.reverse_reverse w]
  conv_lhs =>
    rw [← List.takeWhile_append_dropWhile (p := pyIsSpace) (l := w.reverse)]
  rw [List.reverse_append]

lemma hasTag_rstrip (w : Str) (h : hasTag w = false) : hasTag (pyRstrip w) = false := by
  cases hr : hasTag (pyRstrip w) with
  | false => rfl
  | true =>
    have h2 := hasTag_append_mono (pyRstrip w) (w.reverse.takeWhile pyIsSpace).reverse hr
    rw [← rstrip_decomp w] at h2
    rw [h2] at h
    cases h

lemma hasTag_strip (w : Str) (h : hasTag w = false) : hasTag (pyStrip w) = false :=
  hasTag_rstrip _ (hasTag_dropWhile _ _ h)

lemma replaceAllGo_id (pat rep : Str) : ∀ (fuel : Nat) (s : Str),
    containsSub pat s = false → replaceAllGo pat rep fuel s = s := by
  intro fuel
  induction fuel with
  | zero =>
    intro s _
    cases s with
    | nil => rfl
    | cons c t => rfl
  | succ f ih =>
    intro s h
    cases s with
    | nil => rfl
    | cons c t =>
      rw [containsSub] at h
      simp only [Bool.or_eq_false_iff] at h
      by_cases hpe : pat.isEmpty
      · exfalso
        have hpnil : pat = [] := by simpa [List.isEmpty_iff] using hpe
        rw [hpnil] at h
        simp [startsWithList] at h
      · simp only [replaceAllGo, hpe]
        rw [if_neg (by simpa using hpe), if_neg (by simp [h.1])]
        rw [ih t h.2]

lemma pyReplace_id (s pat rep : Str) (h : containsSub pat s = false) :
    pyReplace s pat rep = s :=
  replaceAllGo_id pat rep s.length s h

lemma foldEntities_id : ∀ (es : List (Str × Str)) (s : Str),
    (∀ e ∈ es, containsSub e.1 s = false) →
    es.foldl (fun acc e => pyReplace acc e.1 e.2) s = s := by
  intro es
  induction es with
  | nil => intro s _; rfl
  | cons e es' ih =>
    intro s h
    rw [List.foldl_cons, pyReplace_id s e.1 e.2 (h e (by simp))]
    exact ih s (fun e' he' => h e' (by simp [he']))

lemma applyEntities_id (s : Str) (h : ∀ e ∈ htmlEntities, containsSub e.1 s = false) :
    applyEntities s = s :=
  foldEntities_id htmlEntities s h

lemma hasTag_of_decomp (u m v : Str) (hm : m ≠ []) (hgt : '>' ∉ m) :
    hasTag (u ++ '<' :: (m ++ '>' :: v)) = true := by
  induction u with
  | nil =>
    simp only [List.nil_append, hasTag, Bool.or_eq_true, Bool.and_eq_true]
    left
    refine ⟨by simp, ?_⟩
    unfold tagAtHead
    cases m with
    | nil => exact absurd rfl hm
    | cons x m' =>
      have hx : (!(x == '>')) = true := by
        have : x ≠ '>' := fun he => hgt (he ▸ List.mem_cons_self x m')
        simp [this]
      rw [List.cons_append, List.takeWhile_cons_of_pos (p := fun y => !(y == '>')) hx,
        List.dropWhile_cons_of_pos (p := fun y => !(y == '>')) hx]
      simp only [Bool.and_eq_true]
      constructor
      · simp
      · have hmem : '>' ∈ m' ++ '>' :: v := List.mem_append_right _ (List.mem_cons_self _ _)
        have hne2 : (m' ++ '>' :: v).dropWhile (fun y => !(y == '>')) ≠ [] := by
          intro hnil
          have := all_of_dropWhile_nil _ _ hnil '>' hmem
          simp at this
        simp only [Bool.not_eq_true']
        cases hie : ((m' ++ '>' :: v).dropWhile (fun y => !(y == '>'))).isEmpty with
        | false => rfl
        | true => exact absurd (List.isEmpty_iff.1 hie) hne2
  | cons c u' ih =>
    rw [List.cons_append]
    exact hasTag_cons_of_tail ih

/-- Whether any of the eight recognized entity strings occurs in `s`. -/
def containsAnyEntity (s : Str) : Bool :=
  htmlEntities.any (fun e => containsSub e.1 s)

/-- **C10 counterexample**: the provider output `"&l<a>t;x&g<b>t;"`
contains none of the recognized HTML character entities, yet after tag
removal the fragments reassemble into `&lt;x&gt;`, the entity
replacement pass turns that into `<x>`, and the returned string matches
`<[^>]+>` (shown by the explicit decomposition). -/
theorem c10_counterexample :
    containsAnyEntity (("&l<a>t;x&g<b>t;").data) = false ∧
    generateTextResponseWithProvider (some (("&l<a>t;x&g<b>t;").data)) =
      some ('<' :: 'x' :: '>' :: []) ∧
    ('<' :: 'x' :: '>' :: [] : Str) = [] ++ '<' :: ((['x'] : Str) ++ '>' :: []) ∧
    (['x'] : Str) ≠ [] ∧ '>' ∉ (['x'] : Str) :=
  ⟨by decide, by decide, by decide, by decide, by decide⟩

/-- **C10 (amended)**: every provider response that succeeds is returned
as `_clean_html_from_text` of the raw text; and whenever none of the
eight recognized entity strings occurs in the text as it stands after
tag and script/style removal (so the entity-replacement pass is a
no-op), the returned string contains no substring matching `<[^>]+>`.
The counterexample shows the hypothesis cannot be weakened to "the raw
provider output contains no entities": tag removal can assemble new
entity occurrences. -/
theorem c10_amended (raw : Str)
    (hent : ∀ e ∈ htmlEntities,
      containsSub e.1 (blockSub (("style").data)
        (blockSub (("script").data) (tagSub raw))) = false) :
    generateTextResponseWithProvider (some raw) = some (cleanHtmlFromText raw) ∧
    hasTag (cleanHtmlFromText raw) = false ∧
    ∀ u m v : Str, cleanHtmlFromText raw = u ++ '<' :: (m ++ '>' :: v) →
      m = [] ∨ '>' ∈ m := by
  have hmain : hasTag (cleanHtmlFromText raw) = false := by
    by_cases hraw : raw.isEmpty = true
    · have hz : raw = [] := List.isEmpty_iff.1 hraw
      subst hz
      rfl
    · have h1 := hasTag_tagSub raw
      have h2 : blockSub (("script").data) (tagSub raw) = tagSub raw := by
        rw [show ("script").data = 's' :: ("cript").data from by decide]
        exact blockSub_id 's' _ (by decide) _ h1
      have h3 : blockSub (("style").data) (tagSub raw) = tagSub raw := by
        rw [show ("style").data = 's' :: ("tyle").data from by decide]
        exact blockSub_id 's' _ (by decide) _ h1
      have hent2 : ∀ e ∈ htmlEntities, containsSub e.1 (tagSub raw) = false := by
        intro e he
        have h4 := hent e he
        rwa [h2, h3] at h4
      have hclean : cleanHtmlFromText raw = pyStrip (collapseNewlines (tagSub raw)) := by
        unfold cleanHtmlFromText
        rw [if_neg hraw, h2, h3, applyEntities_id _ hent2]
      rw [hclean]
      exact hasTag_strip _ (hasTag_collapseGo _ _ h1)
  refine ⟨rfl, hmain, ?_⟩
  intro u m v heq
  by_cases hm : m = []
  · exact Or.inl hm
  · by_cases hin : '>' ∈ m
    · exact Or.inr hin
    · exfalso
      have hdec := hasTag_of_decomp u m v hm hin
      rw [← heq] at hdec
      rw [hdec] at hmain
      cases hmain

/-- Witness for C10 (amended) at a concrete input. -/
theorem c10_amended_witness :
    hasTag (cleanHtmlFromText (("hi <b>there</b> & more").data)) = false :=
  (c10_amended (("hi <b>there</b> & more").data) (by decide)).2.1

/-! ## Chat orchestration (`LlmChat.generate_response` /
`_generate_response`, llm_chat.py 61-249) -/

/-- Message view consumed by `_build_conversation_context`
(db/models/chat.py `Message`): the role rendered as a string and the
content. -/
structure Message where
  role : Str
  content : Str

def asciiLowerChar (c : Char) : Char :=
  if 'A' ≤ c ∧ c ≤ 'Z' then Char.ofNat (c.toNat + 32) else c

def asciiUpperChar (c : Char) : Char :=
  if 'a' ≤ c ∧ c ≤ 'z' then Char.ofNat (c.toNat - 32) else c

/-- Python `str.capitalize()`: first character uppercased, the rest
lowercased. -/
def pyCapitalize : Str → Str
  | [] => []
  | c :: t => asciiUpperChar c :: t.map asciiLowerChar

/-- Python `str.lower()` on a whole string. -/
def asciiLowerStr (s : Str) : Str := s.map asciiLowerChar

/-- Translation of `_build_conversation_context` (llm_chat.py 148-168). -/
def buildConversationContext (previous_messages : List Message) : Str :=
  if previous_messages.isEmpty then ("No previous conversation history.").data
  else
    joinSep ('\n' :: [])
      (previous_messages.map (fun m => pyCapitalize m.role ++ (": ").data ++ m.content))

/-- Python `repr` of a list of strings, as an f-string renders
`tool_display_names` (quoting nuances of `repr` for strings containing
quotes are irrelevant to the properties proved). -/
def pyReprStrList (xs : List Str) : Str :=
  '[' :: (joinSep (',' :: ' ' :: []) (xs.map (fun s => '\x27' :: (s ++ ['\x27']))) ++ [']'])

/-- The fallback response template of `_generate_response` (llm_chat.py
239-249), reached when every provider branch failed or none applies. -/
def fallbackResponse (tools : List Tool) (user_message ctx : Str) : Str :=
  ("Thank you for your message: \x27").data ++ user_message ++ ("\x27. ").data ++
    (if 0 < (if ctx ≠ ("No previous conversation history.").data
             then (pySplitChar '\n' ctx).length else 0) then
       ("I can see we\x27ve had ").data ++
         natToStr (if ctx ≠ ("No previous conversation history.").data
                   then (pySplitChar '\n' ctx).length else 0) ++
         (" previous exchanges in this conversation. ").data
     else []) ++
    ("I\x27m working with the tools \x27").data ++
    pyReprStrList (tools.map (fun t => pyOrStr t.title t.name)) ++ ("\x27. ").data ++
    ("In a real implementation, this response would be generated by an LLM based on the tool\x27s configuration, ").data ++
    ("conversation history, and your specific request. The UI resource below has been updated accordingly.").data

/-- Provider configuration consumed by the cascade of
`_generate_response` (llm_chat.py 188-237): the configured provider
string and which clients initialized. -/
structure LlmSettings where
  llm_provider : Option Str
  openai_available : Bool
  anthropic_available : Bool

/-- Outcomes of the two provider calls for the text-response branch:
`none` models a raised exception, `some raw` a returned text. -/
structure ProviderOutcomes where
  openai : Option Str
  claude : Option Str

/-- Translation of `_generate_response` (llm_chat.py 170-249): try the
preferred provider, then any available provider, each failure falling
through, ending in the fallback template.  Each successful call returns
the cleaned text (see `generateTextResponseWithProvider`). -/
def generateResponseText (st : LlmSettings) (out : ProviderOutcomes)
    (tools : List Tool) (user_message ctx : Str) : Str :=
  match (if st.openai_available &&
           (asciiLowerStr (pyOrStr st.llm_provider (("openai").data)) == ("openai").data ||
            asciiLowerStr (pyOrStr st.llm_provider (("openai").data)) == ("default").data)
         then generateTextResponseWithProvider out.openai else none) with
  | some t => t
  | none =>
    match (if st.anthropic_available &&
             asciiLowerStr (pyOrStr st.llm_provider (("openai").data)) == ("claude").data
           then generateTextResponseWithProvider out.claude else none) with
    | some t => t
    | none =>
      match (if st.openai_available then generateTextResponseWithProvider out.openai
             else none) with
      | some t => t
      | none =>
        match (if st.anthropic_available then generateTextResponseWithProvider out.claude
               else none) with
        | some t => t
        | none => fallbackResponse tools user_message ctx

/-- The `ui_resource` envelope of `generate_response` (llm_chat.py
102-110). -/
structure UiResource where
  uri : Str
  mimeType : Str
  text : Str
deriving DecidableEq

structure UiResourceEnvelope where
  rtype : Str
  resource : UiResource
deriving DecidableEq

def mkUiEnvelope (widget_id html : Str) : UiResourceEnvelope :=
  ⟨("resource").data, ⟨("ui://widget/").data ++ widget_id, ("text/html").data, html⟩⟩

/-- Whether `_generate_ui_resource`'s result delivers HTML
(`html_content and isinstance(..., dict) and .get("html_content")`,
llm_chat.py 92): a dict whose `html_content` is a non-empty string. -/
def uiDelivered (uiOutcome : Option Str) : Bool :=
  match uiOutcome with
  | some h => !h.isEmpty
  | none => false

/-- The user-message splice of `generate_response` (llm_chat.py 92-94). -/
def splicedUserMessage (user_message html : Str) : Str :=
  ("Required UI description or improvements to the HTML content: ").data ++ user_message ++
    ("\n\nFollowing is the HTML content generated for the user\x27s request: ").data ++ html

/-- Translation of `generate_response` (llm_chat.py 61-114).  The UI
branch (`_generate_ui_resource`) performs provider network calls, so its
outcome is an explicit argument: `none` models `None`, `some h` models
`{"html_content": h}`. -/
def generateResponse (st : LlmSettings) (out : ProviderOutcomes) (uiOutcome : Option Str)
    (widget_id : Str) (tools : List Tool) (user_message : Str)
    (previous_messages : List Message) : Str × Option UiResourceEnvelope :=
  (generateResponseText st out tools
     (if uiDelivered uiOutcome then splicedUserMessage user_message (uiOutcome.getD [])
      else user_message)
     (buildConversationContext previous_messages),
   if uiDelivered uiOutcome then some (mkUiEnvelope widget_id (uiOutcome.getD [])) else none)

lemma fallbackResponse_ne_nil (tools : List Tool) (u ctx : Str) :
    fallbackResponse tools u ctx ≠ [] := by
  unfold fallbackResponse
  intro hcontra
  simp [List.append_eq_nil] at hcontra

lemma generateResponseText_fallback (st : LlmSettings) (out : ProviderOutcomes)
    (tools : List Tool) (u ctx : Str) (ho : out.openai = none) (hc : out.claude = none) :
    generateResponseText st out tools u ctx = fallbackResponse tools u ctx := by
  unfold generateResponseText generateTextResponseWithProvider
  rw [ho, hc]
  simp

/-- **C2**: when every text-response provider call raises while the UI
branch delivered non-empty HTML, `generate_response` still returns the
UI envelope together with the (non-empty) fallback text; the failure
never propagates (the embedding is a total function). -/
theorem c2_text_failure_resilience (st : LlmSettings) (out : ProviderOutcomes)
    (widget_id : Str) (tools : List Tool) (user_message : Str)
    (previous_messages : List Message) (h : Str)
    (ho : out.openai = none) (hc : out.claude = none) (hh : h ≠ []) :
    (generateResponse st out (some h) widget_id tools user_message previous_messages).2 =
      some (mkUiEnvelope widget_id h) ∧
    (generateResponse st out (some h) widget_id tools user_message previous_messages).1 =
      fallbackResponse tools (splicedUserMessage user_message h)
        (buildConversationContext previous_messages) ∧
    (generateResponse st out (some h) widget_id tools user_message previous_messages).1 ≠ [] := by
  have hd : uiDelivered (some h) = true := by
    simp [uiDelivered, List.isEmpty_iff, hh]
  refine ⟨?_, ?_, ?_⟩
  · simp [generateResponse, hd]
  · simp [generateResponse, hd, generateResponseText_fallback st out tools _ _ ho hc]
  · simp [generateResponse, hd, generateResponseText_fallback st out tools _ _ ho hc]
    exact fallbackResponse_ne_nil _ _ _

/-- Witness for C2 at concrete inputs. -/
theorem c2_text_failure_resilience_witness :
    (generateResponse ⟨some (("openai").data), true, true⟩ ⟨none, none⟩
        (some (("<html></html>").data)) (("w1").data) [] (("hi").data) []).2 =
      some (mkUiEnvelope (("w1").data) (("<html></html>").data)) :=
  (c2_text_failure_resilience ⟨some (("openai").data), true, true⟩ ⟨none, none⟩
    (("w1").data) [] (("hi").data) [] (("<html></html>").data) rfl rfl (by decide)).1

/-! ## C5: the UI-generation user message and its broken call site -/

/-- Python runtime errors relevant to the embedded call sites. -/
inductive PyErr where
  | typeError
deriving DecidableEq

/-- The call `build_ui_generation_user_message(tools=..., user_message=...,
existing_html=...)` made by `_prepare_ui_generation_context` (llm_chat.py
555-559).  The callee (prompts.py 325-327) declares only `user_message`,
so in Python this call raises `TypeError: unexpected keyword argument`
before any body runs; the embedding returns that error. -/
def prepareUiUserContent (tools : List Tool) (user_message : Str)
    (existing_html : Option Str) : Except PyErr Str :=
  Except.error PyErr.typeError

/-- **C5** (code bug): the user message builder takes no
`existing_html`; its output is the same fixed template around
`user_message` (with the design-image reminder) in both modes, and every
call made by `_prepare_ui_generation_context` raises `TypeError` — no
truncated copy of the existing HTML is ever embedded. -/
theorem c5_user_message_never_embeds_html :
    ∀ (tools : List Tool) (u : Str) (existing_html : Option Str),
      prepareUiUserContent tools u existing_html = Except.error PyErr.typeError ∧
      buildUiGenerationUserMessage u =
        ("Generate a new or update the existing React HTML UI for tools based on the user\x27s request: ").data ++
          u ++
          ("\n\nIMPORTANT: If design images (logos or UX designs) are included in this message, use them as visual inspiration for:\n- Color schemes and palette\n- Typography and font choices\n- Layout patterns and component styles\n- Overall aesthetic and visual hierarchy\n- Brand identity elements").data :=
  fun tools u existing_html => ⟨rfl, rfl⟩

/-! ## C9: design-asset selection for UI generation -/

/-- The qualification filter of `_fetch_designs_for_llm` (llm_chat.py
493-503): images under 2MB. -/
def designOk (d : Design) : Bool :=
  decide (d.file_size < 2 * 1024 * 1024) && startsWithList (("image/").data) d.content_type

/-- The selection comprehension of `_fetch_designs_for_llm` (llm_chat.py
493-496 and 500-503): first five of the repository list (ordered most
recent first), filtered, capped at three. -/
def selectDesigns (l : List Design) : List Design :=
  ((l.take 5).filter designOk).take 3

/-- Translation of `_fetch_designs_for_llm` (llm_chat.py 481-511).  The
body calls `DesignRepository.list_by_type(design_type)` without the
required `project_id` parameter (design_repository.py 61), so the call
raises `TypeError` inside the `try` and the `except` branch returns
empty lists; the selection comprehensions are unreachable.  The stored
repository lists are parameters so the divergence is visible. -/
def fetchDesignsForLlm (logosStored uxStored : List Design) :
    List Design × List Design :=
  (([] : List Design), ([] : List Design))

lemma filter_take_isPre (l : List Design) :
    (l.take 5).filter designOk <+: l.filter designOk := by
  refine ⟨(l.drop 5).filter designOk, ?_⟩
  rw [← List.filter_append, List.take_append_drop]

/-- **C9** (code bug): the selection comprehension itself has the
claimed shape — at most three designs, each a qualifying image under
2MB, and a prefix of the qualifying candidates in repository order
(most recent first) — but `_fetch_designs_for_llm` as written always
returns empty lists because its repository call raises `TypeError`. -/
theorem c9_design_selection :
    ∀ (logosStored uxStored : List Design),
      fetchDesignsForLlm logosStored uxStored = ([], []) ∧
      (selectDesigns logosStored).length ≤ 3 ∧
      (∀ d ∈ selectDesigns logosStored, designOk d = true) ∧
      selectDesigns logosStored <+: logosStored.filter designOk := by
  intro logosStored uxStored
  refine ⟨rfl, ?_, ?_, ?_⟩
  · exact List.length_take_le 3 _
  · intro d hd
    have hmem : d ∈ (logosStored.take 5).filter designOk := List.take_subset _ _ hd
    exact (List.mem_filter.1 hmem).2
  · exact ( List.take_prefix 3 _).trans (filter_take_isPre logosStored)

/-- Witness for C9 at the claim's concrete shape: six logo candidates,
ordered most recent first, of which two do not qualify (one oversized,
one non-image). -/
theorem c9_design_selection_witness :
    fetchDesignsForLlm
        [⟨("a").data, ("a.png").data, ("image/png").data, 100, 60⟩,
         ⟨("b").data, ("b.png").data, ("image/png").data, 3000000, 50⟩,
         ⟨("c").data, ("c.png").data, ("image/png").data, 100, 40⟩,
         ⟨("d").data, ("d.pdf").data, ("application/pdf").data, 100, 30⟩,
         ⟨("e").data, ("e.png").data, ("image/png").data, 100, 20⟩,
         ⟨("f").data, ("f.png").data, ("image/png").data, 100, 10⟩] [] = ([], []) ∧
    designOk ⟨("a").data, ("a.png").data, ("image/png").data, 100, 60⟩ = true :=
  ⟨(c9_design_selection
      [⟨("a").data, ("a.png").data, ("image/png").data, 100, 60⟩,
       ⟨("b").data, ("b.png").data, ("image/png").data, 3000000, 50⟩,
       ⟨("c").data, ("c.png").data, ("image/png").data, 100, 40⟩,
       ⟨("d").data, ("d.pdf").data, ("application/pdf").data, 100, 30⟩,
       ⟨("e").data, ("e.png").data, ("image/png").data, 100, 20⟩,
       ⟨("f").data, ("f.png").data, ("image/png").data, 100, 10⟩] []).1,
   (c9_design_selection
      [⟨("a").data, ("a.png").data, ("image/png").data, 100, 60⟩,
       ⟨("b").data, ("b.png").data, ("image/png").data, 3000000, 50⟩,
       ⟨("c").data, ("c.png").data, ("image/png").data, 100, 40⟩,
       ⟨("d").data, ("d.pdf").data, ("application/pdf").data, 100, 30⟩,
       ⟨("e").data, ("e.png").data, ("image/png").data, 100, 20⟩,
       ⟨("f").data, ("f.png").data, ("image/png").data, 100, 10⟩] []).2.2.1
     ⟨("a").data, ("a.png").data, ("image/png").data, 100, 60⟩ (by decide)⟩

/-! ## MCP chat: tool-to-session routing (app/api/public/mcp_chat.py,
app/api/core/mcp_chat_service.py) -/

/-- Tool dictionary as produced by `connect_to_mcp_server`
(mcp_chat_service.py 88-103): `name` is always set from the MCP tool. -/
structure McpToolDict where
  name : Str
  description : Str
  inputSchema : Json
  title : Option Str
  outputSchema : Option Json

/-- Python `dict` assignment `m[k] = v` on an insertion-ordered
association list: replace the existing binding or append. -/
def dictInsert {S : Type} : List (Str × S) → Str → S → List (Str × S)
  | [], k, v => [(k, v)]
  | (k0, v0) :: rest, k, v =>
    if k0 == k then (k0, v) :: rest else (k0, v0) :: dictInsert rest k v

/-- Python `dict.get`. -/
def dictGet {S : Type} : List (Str × S) → Str → Option S
  | [], _ => none
  | (k0, v0) :: rest, k => if k0 == k then some v0 else dictGet rest k

/-- The dict comprehension of the `init` branch (mcp_chat.py 56):
`{tool.get("name"): mcp_session for tool in tools}`. -/
def initToolMap {S : Type} (tools : List McpToolDict) (sess : S) : List (Str × S) :=
  tools.foldl (fun m t => dictInsert m t.name sess) []

/-- The `add_server` update loop (mcp_chat.py 113-117): every tool name
of the new server is mapped to the new session, overwriting collisions. -/
def addServerMap {S : Type} (m : List (Str × S)) (tools : List McpToolDict) (sess : S) :
    List (Str × S) :=
  tools.foldl (fun m2 t => dictInsert m2 t.name sess) m

/-- One tool call as decided by the model (`tool_call.get("tool_name")`,
`tool_call.get("arguments", {})`). -/
structure ToolCall where
  tool_name : Option Str
  arguments : Json

/-- One result record of `execute_tool_calls`. -/
structure ToolCallRecord where
  tool_name : Str
  arguments : Json
  result : Option Str
  error : Option Str

/-- The per-call body of `execute_tool_calls` (mcp_chat_service.py
247-310).  The MCP invocation and its result-content coercion are
network effects; `callTool` supplies each call's outcome (`.ok` the
coerced result string, `.error` the stringified exception). -/
def execOneCall {S : Type} (callTool : S → Str → Json → Except Str Str)
    (m : List (Str × S)) (call : ToolCall) : ToolCallRecord :=
  match call.tool_name with
  | none => ⟨("unknown").data, call.arguments, none, some (("Tool name missing").data)⟩
  | some nm =>
    if nm.isEmpty then ⟨("unknown").data, call.arguments, none, some (("Tool name missing").data)⟩
    else
      match dictGet m nm with
      | none =>
          ⟨nm, call.arguments, none,
            some ((("Tool \x27").data ++ nm ++ ("\x27 not found in any connected MCP server").data))⟩
      | some sess =>
        match callTool sess nm call.arguments with
        | Except.ok r => ⟨nm, call.arguments, some r, none⟩
        | Except.error e => ⟨nm, call.arguments, none, some e⟩

/-- Translation of `execute_tool_calls` (mcp_chat_service.py 230-312):
one record per call, failures captured per record. -/
def executeToolCalls {S : Type} (callTool : S → Str → Json → Except Str Str)
    (m : List (Str × S)) (calls : List ToolCall) : List ToolCallRecord :=
  calls.map (execOneCall callTool m)

lemma dictGet_insert {S : Type} (a k : Str) (v : S) :
    ∀ m : List (Str × S), dictGet (dictInsert m a v) k =
      if a == k then some v else dictGet m k := by
  intro m
  induction m with
  | nil =>
    by_cases hak : a == k <;> simp [dictInsert, dictGet, hak]
  | cons p rest ih =>
    by_cases h0 : p.1 == a
    · have h0e : p.1 = a := beq_iff_eq.1 h0
      by_cases hak : a == k
      · have hake : a = k := beq_iff_eq.1 hak
        simp [dictInsert, dictGet, h0, hak, h0e, hake]
      · simp [dictInsert, dictGet, h0, hak, h0e]
    · by_cases hpk : p.1 == k
      · have hpke : p.1 = k := beq_iff_eq.1 hpk
        have hak : (a == k) = false := by
          by_contra hb
          have hake : a = k := beq_iff_eq.1 (by simpa using hb)
          exact h0 (by simp [hpke, hake])
        simp [dictInsert, dictGet, h0, hpk, hak]
      · simp [dictInsert, dictGet, h0, hpk, ih]

lemma dictGet_foldl_insert {S : Type} (sess : S) :
    ∀ (tools : List McpToolDict) (m : List (Str × S)) (k : Str),
      dictGet (tools.foldl (fun m2 t => dictInsert m2 t.name sess) m) k =
        if k ∈ tools.map McpToolDict.name then some sess else dictGet m k := by
  intro tools
  induction tools with
  | nil => intro m k; simp
  | cons t ts ih =>
    intro m k
    rw [List.foldl_cons, ih]
    by_cases hm : k ∈ ts.map McpToolDict.name
    · simp [hm]
    · rw [if_neg hm, dictGet_insert]
      by_cases hk : t.name = k
      · simp [hk]
      · have hne : k ≠ t.name := fun he => hk he.symm
        simp [hk, hne, hm]

/-- **C7**: after connecting server A and then server B into one
session, a tool name exposed by B maps to B's session (the `add_server`
loop overwrites collisions), and `execute_tool_calls` on that name
produces exactly the record of invoking it on B's session. -/
theorem c7_tool_routing {S : Type} (toolsA toolsB : List McpToolDict) (sA sB : S)
    (callTool : S → Str → Json → Except Str Str) (args : Json)
    (h : ("search").data ∈ toolsB.map McpToolDict.name) :
    dictGet (addServerMap (initToolMap toolsA sA) toolsB sB) (("search").data) = some sB ∧
    executeToolCalls callTool (addServerMap (initToolMap toolsA sA) toolsB sB)
        [⟨some (("search").data), args⟩] =
      [match callTool sB (("search").data) args with
       | Except.ok r => ⟨("search").data, args, some r, none⟩
       | Except.error e => ⟨("search").data, args, none, some e⟩] := by
  have hget : dictGet (addServerMap (initToolMap toolsA sA) toolsB sB) (("search").data) =
      some sB := by
    unfold addServerMap
    rw [dictGet_foldl_insert sB toolsB (initToolMap toolsA sA) (("search").data), if_pos h]
  refine ⟨hget, ?_⟩
  unfold executeToolCalls
  rw [List.map_cons, List.map_nil]
  unfold execOneCall
  simp only [hget]
  rw [if_neg (by decide)]

/-- Witness for C7 with two concrete servers both exposing `search`. -/
theorem c7_tool_routing_witness :
    dictGet
      (addServerMap
        (initToolMap [⟨("search").data, ("find things").data, Json.obj [], none, none⟩] (1 : Nat))
        [⟨("search").data, ("find other things").data, Json.obj [], none, none⟩] (2 : Nat))
      (("search").data) = some 2 :=
  (c7_tool_routing [⟨("search").data, ("find things").data, Json.obj [], none, none⟩]
    [⟨("search").data, ("find other things").data, Json.obj [], none, none⟩] 1 2
    (fun _ _ _ => Except.ok (("ok").data)) (Json.obj []) (by decide)).1

/-! ## JSON parsing (`json.loads` as used by `decide_tool_calls`) -/

/-- JSON insignificant whitespace (`json.loads`). -/
def jsonIsWs (c : Char) : Bool :=
  c == ' ' || c == '\t' || c == '\n' || c == '\x0d'

def isDigitCh (c : Char) : Bool := '0' ≤ c && c ≤ '9'

def isHexDigitCh (c : Char) : Bool :=
  ('0' ≤ c && c ≤ '9') || ('a' ≤ c && c ≤ 'f') || ('A' ≤ c && c ≤ 'F')

def hexVal (c : Char) : Nat :=
  if '0' ≤ c && c ≤ '9' then c.toNat - 48
  else if 'a' ≤ c && c ≤ 'f' then c.toNat - 87
  else c.toNat - 55

/-- JSON string body parser (input begins after the opening quote);
returns the decoded content and the rest after the closing quote.
Escapes are decoded; `\uXXXX` becomes the scalar (surrogate pairs are
out of scope for the texts of this repository). -/
def parseJsonStr : Nat → Str → Option (Str × Str)
  | 0, _ => none
  | fuel + 1, s =>
    match s with
    | [] => none
    | '"' :: rest => some ([], rest)
    | '\\' :: e :: rest =>
      let dec : Option (Char × Str) :=
        if e == '"' then some ('"', rest)
        else if e == '\\' then some ('\\', rest)
        else if e == '/' then some ('/', rest)
        else if e == 'b' then some ('\x08', rest)
        else if e == 'f' then some ('\x0c', rest)
        else if e == 'n' then some ('\n', rest)
        else if e == 't' then some ('\t', rest)
        else if e == 'r' then some ('\x0d', rest)
        else if e == 'u' then
          match rest with
          | h1 :: h2 :: h3 :: h4 :: r2 =>
            if isHexDigitCh h1 && isHexDigitCh h2 && isHexDigitCh h3 && isHexDigitCh h4 then
              some (Char.ofNat
                (((hexVal h1 * 16 + hexVal h2) * 16 + hexVal h3) * 16 + hexVal h4), r2)
            else none
          | _ => none
        else none
      match dec with
      | none => none
      | some (c, r2) =>
        match parseJsonStr fuel r2 with
        | some (cs, r3) => some (c :: cs, r3)
        | none => none
    | c :: rest =>
      if c.toNat < 32 then none
      else
        match parseJsonStr fuel rest with
        | some (cs, r3) => some (c :: cs, r3)
        | none => none

/-- JSON number lexeme (sign, integer part without leading zeros,
optional fraction and exponent); returns the lexeme and the rest. -/
def parseJsonNumber (s : Str) : Option (Str × Str) :=
  let sign : Str × Str :=
    match s with
    | '-' :: r => (['-'], r)
    | _ => ([], s)
  let ip := sign.2.takeWhile isDigitCh
  let r1 := sign.2.dropWhile isDigitCh
  if ip.isEmpty then none
  else if 1 < ip.length && ip.head? == some '0' then none
  else
    let frac : Str × Str :=
      match r1 with
      | '.' :: rr =>
        if (rr.takeWhile isDigitCh).isEmpty then ([], r1)
        else ('.' :: rr.takeWhile isDigitCh, rr.dropWhile isDigitCh)
      | _ => ([], r1)
    let ex : Str × Str :=
      match frac.2 with
      | 'e' :: rr =>
        match rr with
        | '+' :: rr2 =>
          if (rr2.takeWhile isDigitCh).isEmpty then ([], frac.2)
          else ('e' :: '+' :: rr2.takeWhile isDigitCh, rr2.dropWhile isDigitCh)
        | '-' :: rr2 =>
          if (rr2.takeWhile isDigitCh).isEmpty then ([], frac.2)
          else ('e' :: '-' :: rr2.takeWhile isDigitCh, rr2.dropWhile isDigitCh)
        | _ =>
          if (rr.takeWhile isDigitCh).isEmpty then ([], frac.2)
          else ('e' :: rr.takeWhile isDigitCh, rr.dropWhile isDigitCh)
      | 'E' :: rr =>
        match rr with
        | '+' :: rr2 =>
          if (rr2.takeWhile isDigitCh).isEmpty then ([], frac.2)
          else ('E' :: '+' :: rr2.takeWhile isDigitCh, rr2.dropWhile isDigitCh)
        | '-' :: rr2 =>
          if (rr2.takeWhile isDigitCh).isEmpty then ([], frac.2)
          else ('E' :: '-' :: rr2.takeWhile isDigitCh, rr2.dropWhile isDigitCh)
        | _ =>
          if (rr.takeWhile isDigitCh).isEmpty then ([], frac.2)
          else ('E' :: rr.takeWhile isDigitCh, rr.dropWhile isDigitCh)
      | _ => ([], frac.2)
    some (sign.1 ++ ip ++ frac.1 ++ ex.1, ex.2)

/-- Array items `item (, item)* ]`, with the element parser as a
parameter. -/
def parseArrayItems (pv : Str → Option (Json × Str)) : Nat → Str → Option (List Json × Str)
  | 0, _ => none
  | fuel + 1, s =>
    match pv s with
    | none => none
    | some (v, r1) =>
      match r1.dropWhile jsonIsWs with
      | ',' :: r3 =>
        match parseArrayItems pv fuel r3 with
        | some (vs, r4) => some (v :: vs, r4)
        | none => none
      | ']' :: r3 => some ([v], r3)
      | _ => none

/-- Object members `"key" : value (, member)* }`, with the value parser
and the string parser fuel as parameters. -/
def parseObjMembers (pv : Str → Option (Json × Str)) :
    Nat → Str → Option (List (Str × Json) × Str)
  | 0, _ => none
  | fuel + 1, s =>
    match s.dropWhile jsonIsWs with
    | '"' :: r1 =>
      match parseJsonStr (fuel + 1) r1 with
      | none => none
      | some (key, r2) =>
        match r2.dropWhile jsonIsWs with
        | ':' :: r4 =>
          match pv r4 with
          | none => none
          | some (v, r5) =>
            match r5.dropWhile jsonIsWs with
            | ',' :: r7 =>
              match parseObjMembers pv fuel r7 with
              | some (fs, r8) => some ((key, v) :: fs, r8)
              | none => none
            | '\x7d' :: r7 => some ([(key, v)], r7)
            | _ => none
        | _ => none
    | _ => none

/-- JSON value parser with depth fuel (`input length + 1` suffices:
every nesting level consumes at least one character). -/
def parseJsonValue : Nat → Str → Option (Json × Str)
  | 0, _ => none
  | fuel + 1, s0 =>
    match s0.dropWhile jsonIsWs with
    | [] => none
    | c :: rest =>
      if c == '"' then
        match parseJsonStr (fuel + 1) rest with
        | some (cs, r) => some (Json.str cs, r)
        | none => none
      else if c == '\x7b' then
        match rest.dropWhile jsonIsWs with
        | '\x7d' :: r2 => some (Json.obj [], r2)
        | _ =>
          match parseObjMembers (parseJsonValue fuel) (fuel + 1) rest with
          | some (fs, r2) => some (Json.obj fs, r2)
          | none => none
      else if c == '[' then
        match rest.dropWhile jsonIsWs with
        | ']' :: r2 => some (Json.arr [], r2)
        | _ =>
          match parseArrayItems (parseJsonValue fuel) (fuel + 1) rest with
          | some (vs, r2) => some (Json.arr vs, r2)
          | none => none
      else if startsWithList (("true").data) (c :: rest) then
        some (Json.bool true, (c :: rest).drop 4)
      else if startsWithList (("false").data) (c :: rest) then
        some (Json.bool false, (c :: rest).drop 5)
      else if startsWithList (("null").data) (c :: rest) then
        some (Json.null, (c :: rest).drop 4)
      else if startsWithList (("NaN").data) (c :: rest) then
        some (Json.num (("NaN").data), (c :: rest).drop 3)
      else if startsWithList (("Infinity").data) (c :: rest) then
        some (Json.num (("Infinity").data), (c :: rest).drop 8)
      else if startsWithList (("-Infinity").data) (c :: rest) then
        some (Json.num (("-Infinity").data), (c :: rest).drop 9)
      else
        match parseJsonNumber (c :: rest) with
        | some (lx, r) => some (Json.num lx, r)
        | none => none

/-- Python `json.loads`: one value, nothing but whitespace after it. -/
def pyJsonLoads (s : Str) : Option Json :=
  match parseJsonValue (s.length + 1) s with
  | some (v, rest) => if (rest.dropWhile jsonIsWs).isEmpty then some v else none
  | none => none

def jsonIsArr : Json → Bool
  | .arr _ => true
  | _ => false


/-- The fence extraction of `decide_tool_calls` (mcp_chat_service.py
206-211): only applied when three backticks occur; `re.search` takes
the first match of the `json`-worded fence pattern, and a failed search
leaves the text unchanged. -/
def fenceSearchJson (text : Str) : Str :=
  if containsSub (("```").data) text then
    match (fenceFindAll (("json").data) text).head? with
    | some grp => grp
    | none => text
  else text

/-- Translation of `decide_tool_calls` (mcp_chat_service.py 112-228).
The Anthropic call is a network effect: `available` is whether a client
is configured (otherwise the source returns `[]` at once), `llmOutcome`
is `none` when the call raises and `some text` for a response (the
source substitutes `"[]"` when the content list is empty).  The decision
prompt it sends does not influence the parse of the outcome. -/
def decideToolCalls (available : Bool) (llmOutcome : Option Str) : List Json :=
  if !available then [] else
  match llmOutcome with
  | none => []
  | some text =>
    match pyJsonLoads (pyStrip (fenceSearchJson text)) with
    | some (Json.arr items) => items
    | some _ => []
    | none => []

/-- **C8**: whenever the tool-decision response does not parse as JSON,
or parses to a non-list value, `decide_tool_calls` returns the empty
list; a raised provider call and a missing client also yield `[]` (the
embedding is total — nothing propagates). -/
theorem c8_decide_tool_calls_default (text : Str)
    (h : (pyJsonLoads (pyStrip (fenceSearchJson text))).isNone = true ∨
         (∃ v, pyJsonLoads (pyStrip (fenceSearchJson text)) = some v ∧ jsonIsArr v = false)) :
    decideToolCalls true (some text) = [] ∧
    decideToolCalls true none = [] ∧
    decideToolCalls false (some text) = [] := by
  refine ⟨?_, rfl, rfl⟩
  unfold decideToolCalls
  simp only [Bool.not_true, Bool.false_eq_true, if_false]
  cases hp : pyJsonLoads (pyStrip (fenceSearchJson text)) with
  | none => rfl
  | some v =>
    rcases h with h | ⟨v2, hv2, harr⟩
    · rw [hp] at h
      simp at h
    · rw [hp] at hv2
      have hvv : v = v2 := by injection hv2
      subst hvv
      cases v with
      | arr items => simp [jsonIsArr] at harr
      | null => rfl
      | bool b => rfl
      | num lx => rfl
      | str s => rfl
      | obj fs => rfl

/-- Witness for C8 at the claim's concrete input `"no tools needed"`. -/
theorem c8_decide_tool_calls_default_witness :
    decideToolCalls true (some (("no tools needed").data)) = [] :=
  (c8_decide_tool_calls_default (("no tools needed").data) (Or.inl (by decide))).1
